import Mathlib

/-!
Verification of the core pipeline of the CEA building-integrated-agriculture
(BIA) plugin, a shallow embedding of `bia/bia_dli.py` and
`bia/equation/bia_select.py`.

Conventions of the embedding:
* pandas DataFrames become Lean lists (rows, or association lists of
  column name to column values); the floating point numbers of the source
  become exact rationals;
* Python exceptions become `Except PyErr`;
* pandas index alignment (sort, elementwise transform, merge back on the
  index) is rendered as an elementwise map, which produces the same row
  order, as noted at each definition;
* two spots of dynamic Python typing that drive the control flow are
  modelled explicitly: the `.shape` attribute lookup on a value that is a
  plain Python list (`np.argsort(...).tolist()`), and the `DataFrame.iat`
  indexer validation that rejects non-integer (list) indexers.
-/

/-- Python exceptions relevant to this code base.  The constructor
`configurationError` is the error class a configuration validator would
raise; the code under verification never produces it. -/
inductive PyErr where
  | attributeError (msg : String)
  | valueError (msg : String)
  | configurationError (msg : String)
deriving DecidableEq, Repr

/-! ## Small list helpers (pandas `min`, `max`, `median`, column sums) -/

/-- Minimum of a list of rationals, `0` on the empty list (pandas `Series.min`
is only applied to nonempty data in this pipeline). -/
def listMin : List ℚ → ℚ
  | [] => 0
  | z :: zs => zs.foldl min z

/-- Maximum of a list of rationals, `0` on the empty list. -/
def listMax : List ℚ → ℚ
  | [] => 0
  | z :: zs => zs.foldl max z

lemma foldl_min_le_init (zs : List ℚ) : ∀ a : ℚ, zs.foldl min a ≤ a := by
  induction zs with
  | nil => intro a; simp
  | cons z zs ih =>
    intro a
    calc (z :: zs).foldl min a = zs.foldl min (min a z) := rfl
    _ ≤ min a z := ih (min a z)
    _ ≤ a := min_le_left a z

lemma foldl_min_le_mem (zs : List ℚ) : ∀ (a x : ℚ), x ∈ zs → zs.foldl min a ≤ x := by
  induction zs with
  | nil => intro a x hx; cases hx
  | cons z zs ih =>
    intro a x hx
    rcases List.mem_cons.mp hx with h | h
    · subst h
      calc (x :: zs).foldl min a = zs.foldl min (min a x) := rfl
      _ ≤ min a x := foldl_min_le_init zs (min a x)
      _ ≤ x := min_le_right a x
    · exact ih (min a z) x h

lemma listMin_le (zs : List ℚ) (x : ℚ) (hx : x ∈ zs) : listMin zs ≤ x := by
  cases zs with
  | nil => cases hx
  | cons z zs =>
    rcases List.mem_cons.mp hx with h | h
    · subst h; exact foldl_min_le_init zs x
    · exact foldl_min_le_mem zs z x h

lemma init_le_foldl_max (zs : List ℚ) : ∀ a : ℚ, a ≤ zs.foldl max a := by
  induction zs with
  | nil => intro a; simp
  | cons z zs ih =>
    intro a
    calc a ≤ max a z := le_max_left a z
    _ ≤ zs.foldl max (max a z) := ih (max a z)
    _ = (z :: zs).foldl max a := rfl

lemma mem_le_foldl_max (zs : List ℚ) : ∀ (a x : ℚ), x ∈ zs → x ≤ zs.foldl max a := by
  induction zs with
  | nil => intro a x hx; cases hx
  | cons z zs ih =>
    intro a x hx
    rcases List.mem_cons.mp hx with h | h
    · subst h
      calc x ≤ max a x := le_max_right a x
      _ ≤ zs.foldl max (max a x) := init_le_foldl_max zs (max a x)
      _ = (x :: zs).foldl max a := rfl
    · exact ih (max a z) x h

lemma le_listMax (zs : List ℚ) (x : ℚ) (hx : x ∈ zs) : x ≤ listMax zs := by
  cases zs with
  | nil => cases hx
  | cons z zs =>
    rcases List.mem_cons.mp hx with h | h
    · subst h; exact init_le_foldl_max zs x
    · exact mem_le_foldl_max zs z x h

lemma foldl_max_mem (zs : List ℚ) : ∀ a : ℚ, zs.foldl max a = a ∨ zs.foldl max a ∈ zs := by
  induction zs with
  | nil => intro a; left; rfl
  | cons z zs ih =>
    intro a
    have h : (z :: zs).foldl max a = zs.foldl max (max a z) := rfl
    rcases ih (max a z) with h1 | h1
    · rcases max_choice a z with h2 | h2
      · left; rw [h, h1, h2]
      · right; rw [h, h1, h2]; exact List.mem_cons_self z zs
    · right; rw [h]; exact List.mem_cons_of_mem z h1

lemma listMax_mem (zs : List ℚ) (h : zs ≠ []) : listMax zs ∈ zs := by
  cases zs with
  | nil => exact absurd rfl h
  | cons z zs =>
    rcases foldl_max_mem zs z with h1 | h1
    · rw [show listMax (z :: zs) = zs.foldl max z from rfl, h1]
      exact List.mem_cons_self z zs
    · rw [show listMax (z :: zs) = zs.foldl max z from rfl]
      exact List.mem_cons_of_mem z h1

/-- Characterisation of `countP` over `List.range m` for a downward closed
predicate: every position below the count satisfies the predicate and every
position from the count up to `m` fails it. -/
lemma countP_range_downclosed (P : ℕ → Bool)
    (hdc : ∀ i j : ℕ, i ≤ j → P j = true → P i = true) :
    ∀ m : ℕ, (∀ j, j < (List.range m).countP P → P j = true) ∧
      (∀ j, (List.range m).countP P ≤ j → j < m → P j = false) := by
  intro m
  induction m with
  | zero =>
    constructor
    · intro j hj; simp at hj
    · intro j _ hj; cases hj
  | succ m ih =>
    cases hP : P m
    · -- P m = false : the count is unchanged
      have hc : (List.range (m + 1)).countP P = (List.range m).countP P := by
        rw [List.range_succ, List.countP_append]
        simp [List.countP_cons, hP]
      constructor
      · intro j hj; rw [hc] at hj; exact ih.1 j hj
      · intro j hj hjm
        rw [hc] at hj
        rcases Nat.lt_succ_iff_lt_or_eq.mp hjm with h | h
        · exact ih.2 j hj h
        · subst h; exact hP
    · -- P m = true : downward closure makes every position satisfy P
      have hall : ∀ a ∈ List.range (m + 1), P a = true := by
        intro a ha
        exact hdc a m (Nat.lt_succ_iff.mp (List.mem_range.mp ha)) hP
      have hc : (List.range (m + 1)).countP P = m + 1 := by
        rw [List.countP_eq_length.mpr hall, List.length_range]
      constructor
      · intro j hj
        rw [hc] at hj
        exact hdc j m (Nat.lt_succ_iff.mp hj) hP
      · intro j hj hjm
        rw [hc] at hj
        exact absurd hjm (Nat.not_lt.mpr hj)

/-- Entrywise description of `List.zipWith (+)` through `getD` (for lists of
equal length; out of range positions give `0 = 0 + 0`). -/
lemma getD_zipWith_add (a : List ℚ) : ∀ (b : List ℚ) (s : ℕ), a.length = b.length →
    (List.zipWith (· + ·) a b).getD s 0 = a.getD s 0 + b.getD s 0 := by
  induction a with
  | nil => intro b s h
           cases b with
           | nil => simp
           | cons x xs => cases h
  | cons x xs ih =>
    intro b s h
    cases b with
    | nil => cases h
    | cons y ys =>
      cases s with
      | zero => simp
      | succ s =>
        have h' : xs.length = ys.length := by
          simp only [List.length_cons] at h
          omega
        simpa using ih ys s h'

lemma getD_replicate_zero (w s : ℕ) : (List.replicate w (0 : ℚ)).getD s 0 = 0 := by
  induction w generalizing s with
  | zero => simp
  | succ w ih =>
    cases s with
    | zero => simp [List.replicate]
    | succ s => simpa [List.replicate] using ih s

/-! ## Sensor metadata -/

/-- One row of the sensor metadata table.  Only the columns this pipeline
reads are modelled: the `SURFACE` index, the surface `TYPE`
(`roofs` / `walls` / `windows`), the `orientation`
(`north` / `east` / `south` / `west` / `top`) and the elevation `Zcoor`. -/
structure SensorMeta where
  SURFACE : String
  TYPE : String
  orientation : String
  Zcoor : ℚ
deriving DecidableEq, Repr, Inhabited

/-! ## Radiation Filter (`filter_low_potential`, bia_dli.py lines 278-330) -/

/-- The four return values of `filter_low_potential`.  The filtered
metadata rows carry the `total_rad_Whm2` column attached by the merge. -/
structure FilterResult where
  max_annual_radiation : ℚ
  annual_radiation_threshold_Whperm2 : ℚ
  sensors_rad_clean : List (String × List ℚ)
  sensors_metadata_clean : List (SensorMeta × ℚ)
deriving DecidableEq, Repr

/-- Line 313: the annual sum of every radiation column. -/
def sensors_rad_sum_of (sensors_rad : List (String × List ℚ)) : List (String × ℚ) :=
  sensors_rad.map (fun c => (c.1, c.2.sum))

/-- Line 315: inner `merge` on the `SURFACE` index, keeping the left
(metadata) row order; metadata rows without a radiation column drop out. -/
def merged_metadata (sensors_rad : List (String × List ℚ))
    (sensors_metadata : List SensorMeta) : List (SensorMeta × ℚ) :=
  sensors_metadata.filterMap (fun m =>
    ((sensors_rad_sum_of sensors_rad).find? (fun c => c.1 == m.SURFACE)).map
      (fun c => (m, c.2)))

/-- Lines 318-321: remove roof rows when `crop_on_roof` is false, wall rows
when `crop_on_wall` is false. -/
def policy_filtered (crop_on_roof crop_on_wall : Bool) (l : List (SensorMeta × ℚ)) :
    List (SensorMeta × ℚ) :=
  let meta1 := if crop_on_roof then l else l.filter (fun p => !(p.1.TYPE == "roofs"))
  if crop_on_wall then meta1 else meta1.filter (fun p => !(p.1.TYPE == "walls"))

/-- Embedding of `filter_low_potential`.  The radiation table is an
association list of sensor column name to hourly values, the metadata a row
list: the merge of line 315, the policy removals of lines 318-321, the
maximum over the per-column annual sums of the whole input table
(line 325), the threshold filter (lines 326-327) and the column selection
by the filtered metadata index list (line 328), stage by stage. -/
def filter_low_potential (crop_on_roof crop_on_wall : Bool)
    (annual_radiation_threshold_BIA : ℚ)
    (sensors_rad : List (String × List ℚ)) (sensors_metadata : List SensorMeta) :
    FilterResult :=
  let meta2 := policy_filtered crop_on_roof crop_on_wall
    (merged_metadata sensors_rad sensors_metadata)
  let max_annual_radiation := listMax ((sensors_rad_sum_of sensors_rad).map Prod.snd)
  let annual_radiation_threshold_Whperm2 := annual_radiation_threshold_BIA * 1000
  let sensors_metadata_clean :=
    meta2.filter (fun p => decide (annual_radiation_threshold_Whperm2 ≤ p.2))
  let sensors_rad_clean :=
    (sensors_metadata_clean.map (fun p => p.1.SURFACE)).filterMap
      (fun sid => sensors_rad.find? (fun c => c.1 == sid))
  ⟨max_annual_radiation, annual_radiation_threshold_Whperm2, sensors_rad_clean,
    sensors_metadata_clean⟩

/-! ## DLI Converter (`calc_Whperm2_molperm2`, bia_dli.py lines 109-136) -/

/-- Sum of one pandas groupby group: the elementwise sum of the member
rows (`groupby(...).sum()` over the day label). -/
def sum_rows : List (List ℚ) → List ℚ
  | [] => []
  | [r] => r
  | r :: rs => List.zipWith (· + ·) r (sum_rows rs)

/-- Scaling of one hourly value (lines 123-125):
`value * 0.45 * (4.57 * 3600) / 10^6`. -/
def dli_scale (v : ℚ) : ℚ :=
  let wl_400_700nm : ℚ := 45 / 100
  let conversion : ℚ := (457 / 100) * 3600
  v * wl_400_700nm * conversion / 1000000

/-- Line 125 applied to the whole table. -/
def dli_scaled (rows : List (List ℚ)) : List (List ℚ) :=
  rows.map (fun row => row.map dli_scale)

/-- Embedding of `calc_Whperm2_molperm2`: each hourly value is scaled by
`dli_scale` (lines 123-125); the repeated-day series built on lines
128-129 labels hour `h` with day `h / 24`, and the groupby of line 133
sums every day group, producing the day rows in label order (for the
8760-row radiation table the labels present are exactly `0..364`). -/
def calc_Whperm2_molperm2 (radiation_Whperm2 : List (List ℚ)) : List (List ℚ) :=
  let dli_output_mol_h := dli_scaled radiation_Whperm2
  (List.range 365).map (fun d =>
    sum_rows (dli_output_mol_h.enum.filterMap
      (fun p => if p.1 / 24 = d then some p.2 else none)))

/-! ## Floor/Wall Classifier (bia_dli.py lines 171-275) -/

/-- Facade elevations: the `Zcoor` of the sensors whose orientation is not
`top` (line 193). -/
def facadeZs (meta : List SensorMeta) : List ℚ :=
  (meta.filter (fun s => !(s.orientation == "top"))).map SensorMeta.Zcoor

/-- Edges of the `pd.cut(series, bins := n)` equal width binning: a
linspace from the series minimum to its maximum with `n + 1` points; with
right closed intervals the first edge is lowered by 0.1 percent of the
range so that the minimum falls into the first bin, and a zero width range
is widened by `cutAdj` - 0.1 percent of the magnitude, 0.001 at zero - on
both sides. -/
def cutAdj (x : ℚ) : ℚ := if x = 0 then 1 / 1000 else |x| / 1000

/-- The `pd.cut` edge list itself; see `cutAdj` above. -/
def cutEdges (n : ℕ) (zs : List ℚ) : List ℚ :=
  if listMin zs = listMax zs then
    (List.range (n + 1)).map (fun j : ℕ =>
      (listMin zs - cutAdj (listMin zs)) +
        ((listMax zs + cutAdj (listMax zs)) - (listMin zs - cutAdj (listMin zs))) *
          (j : ℚ) / (n : ℚ))
  else
    (listMin zs - (listMax zs - listMin zs) / 1000) ::
      (List.range n).map (fun j : ℕ =>
        listMin zs + (listMax zs - listMin zs) * ((j : ℚ) + 1) / (n : ℚ))

/-- Bin index assigned by `pd.cut(..., labels := False)`: a left
`searchsorted` into the increasing edge list - the number of edges
strictly below the value - minus one. -/
def pdCutBin (n : ℕ) (zs : List ℚ) (z : ℚ) : ℕ :=
  (cutEdges n zs).countP (fun e => decide (e < z)) - 1

/-- Floor number of one sensor (lines 191-212): `top` sensors get `0` (the
`fillna(0)` of line 210), facade sensors their `pd.cut` bin plus one
(line 204).  The source sorts the facade rows by `Zcoor`, cuts, and merges
the labels back on the index; `pd.cut` is elementwise over the same value
set, so the merged-back label of a sensor depends only on its own `Zcoor`
and the facade minimum and maximum, which is what this function
computes. -/
def sensorFloor (n_floors : ℕ) (meta : List SensorMeta) (s : SensorMeta) : ℕ :=
  if s.orientation == "top" then 0 else pdCutBin n_floors (facadeZs meta) s.Zcoor + 1

/-- Embedding of `calc_sensor_floor_number` (lines 171-214): the floor
label series, in the metadata row order. -/
def calc_sensor_floor_number (n_floors : ℕ) (meta : List SensorMeta) : List ℕ :=
  meta.map (sensorFloor n_floors meta)

/-- Insertion of one value into a sorted list of rationals. -/
def insertSorted (x : ℚ) : List ℚ → List ℚ
  | [] => [x]
  | y :: ys => if x ≤ y then x :: y :: ys else y :: insertSorted x ys

/-- Insertion sort of a list of rationals. -/
def sortQ (l : List ℚ) : List ℚ := l.foldr insertSorted []

/-- pandas `Series.median`: middle value of the sorted data for odd length,
mean of the two middle values for even length; `none` models the NaN
median of an empty series. -/
def pandasMedian (l : List ℚ) : Option ℚ :=
  if l.isEmpty then none
  else
    let s := sortQ l
    let n := l.length
    if n % 2 = 1 then some (s.getD (n / 2) 0)
    else some ((s.getD (n / 2 - 1) 0 + s.getD (n / 2) 0) / 2)

/-- Wall zone of one wall sensor (lines 256-259): `upper` strictly above
the window median, `lower` strictly below it, `side` otherwise - in
particular whenever the cell has no window sensors (NaN median: both
comparisons are false and the `fillna` of line 259 applies). -/
def wallLabel (median : Option ℚ) (z : ℚ) : String :=
  match median with
  | none => "side"
  | some m => if z > m then "upper" else if z < m then "lower" else "side"

/-- The four facade orientations iterated by `calc_sensor_wall_type`
(line 237). -/
def orientations : List String := ["north", "east", "south", "west"]

/-- Label pairs produced by the orientation and floor loops of
`calc_sensor_wall_type` (lines 237-266): for each of the four orientations
and each floor `1..max(n_floor)`, the wall sensors of that cell are
labelled against the median window elevation of the same cell.  Each pair
is the `SURFACE` index of a wall sensor with its label. -/
def wall_type_pairs (n_floors : ℕ) (meta : List SensorMeta) : List (String × String) :=
  let floors := calc_sensor_floor_number n_floors meta
  let maxFloor := floors.foldl max 0
  orientations.flatMap (fun o =>
    (List.range maxFloor).flatMap (fun j0 =>
      let j := j0 + 1
      let walls := meta.filter (fun s =>
        s.orientation == o && sensorFloor n_floors meta s == j && s.TYPE == "walls")
      let windows := meta.filter (fun s =>
        s.orientation == o && sensorFloor n_floors meta s == j && s.TYPE == "windows")
      let med := pandasMedian (windows.map SensorMeta.Zcoor)
      walls.map (fun s => (s.SURFACE, wallLabel med s.Zcoor))))

/-- Embedding of `calc_sensor_wall_type` (lines 217-275): the concatenated
per-cell label frames are merged back onto the metadata by the `SURFACE`
index (a left join keeping the metadata order, lines 269-270), and every
row without a label - windows, roofs - is filled with `non_wall`
(line 273). -/
def calc_sensor_wall_type (n_floors : ℕ) (meta : List SensorMeta) : List String :=
  meta.map (fun s =>
    (((wall_type_pairs n_floors meta).find? (fun p => p.1 == s.SURFACE)).map Prod.snd).getD
      "non_wall")

/-! ## Crop Metric Ranker (`calc_crop_rank`, bia_select.py lines 83-188) -/

/-- One row of a `{building}_BIA_metrics_{crop}.csv` table: the columns the
objective dispatch of `calc_crop_rank` reads. -/
structure BiaMetricsRow where
  yield_kg_per_year : ℚ
  ghg_kg_co2_bia : ℚ
  energy_kWh_bia : ℚ
  water_l_bia : ℚ
  capex_all_annualised_USD : ℚ
  opex_all_USD_per_year : ℚ
deriving DecidableEq, Repr

/-- The ten objective strings recognised by the `if`/`elif` chain of
`calc_crop_rank` (lines 120-163). -/
def recognizedObjectives : List String :=
  ["CropYield", "GHGEmission", "EnergyUse", "WaterUse", "AnnualisedCAPEX",
   "AnnualisedCAPEXPerKgYield", "AnnualOPEX", "AnnualOPEXPerKgYield",
   "AnnualCost", "AnnualCostPerKgYield"]

/-- Scalar selected for one surface by the objective dispatch (lines
120-163); `none` is the `else` branch for an unrecognised objective.
Division is exact rational division (the source divides float64 values;
the zero yield case is flagged as an open question by the design notes and
is not exercised by any theorem below). -/
def objValue (obj : String) (r : BiaMetricsRow) : Option ℚ :=
  if obj = "CropYield" then some r.yield_kg_per_year
  else if obj = "GHGEmission" then some r.ghg_kg_co2_bia
  else if obj = "EnergyUse" then some r.energy_kWh_bia
  else if obj = "WaterUse" then some r.water_l_bia
  else if obj = "AnnualisedCAPEX" then some r.capex_all_annualised_USD
  else if obj = "AnnualisedCAPEXPerKgYield" then
    some (r.capex_all_annualised_USD / r.yield_kg_per_year)
  else if obj = "AnnualOPEX" then some r.opex_all_USD_per_year
  else if obj = "AnnualOPEXPerKgYield" then
    some (r.opex_all_USD_per_year / r.yield_kg_per_year)
  else if obj = "AnnualCost" then
    some (r.capex_all_annualised_USD + r.opex_all_USD_per_year)
  else if obj = "AnnualCostPerKgYield" then
    some ((r.capex_all_annualised_USD + r.opex_all_USD_per_year) / r.yield_kg_per_year)
  else none

/-- The per-surface loop of lines 117-167 for one crop type: on a
recognised objective every surface appends its scalar; on an unrecognised
objective the first surface prints the error message and `break`s out of
the loop, leaving the value list empty.  The first component collects the
printed messages. -/
def metric_srf_loop (obj : String) : List BiaMetricsRow → List String × List ℚ
  | [] => ([], [])
  | r :: rest =>
    match objValue obj r with
    | some v =>
      let p := metric_srf_loop obj rest
      (p.1, v :: p.2)
    | none => (["Error: user to define the objective BIA metric."], [])

/-- One step of the numpy insertion argsort: index `i` is shifted left past
every index whose value is strictly greater, so it lands after all earlier
indices with values less than or equal to its own. -/
def insertArg (v : List ℚ) (i : ℕ) : List ℕ → List ℕ
  | [] => [i]
  | j :: js => if v.getD i 0 < v.getD j 0 then i :: j :: js else j :: insertArg v i js

/-- Stable insertion argsort: folding `insertArg` over the indices in
order is the insertion-sort phase of numpy's `aquicksort_` (the in-place
shifting loop moves each index left past the strictly greater values,
which is exactly where `insertArg` places it), and for an array of at
most 16 elements that phase is the whole sort. -/
def insertion_argsort (v : List ℚ) : List ℕ :=
  (List.range v.length).foldl (fun acc i => insertArg v i acc) []

/-- Position of the most significant bit (numpy `npy_get_msb`); the
introsort depth budget is twice this. -/
def npy_get_msb (n : ℕ) : ℕ := Nat.log2 n

/-- Read position `i` of the argsort index buffer (`*p` for a pointer
into `tosort`). -/
def aget (t : List ℕ) (i : ℕ) : ℕ := t.getD i 0

/-- Swap positions `i` and `j` of the index buffer (`INTP_SWAP`). -/
def aswap (t : List ℕ) (i j : ℕ) : List ℕ := (t.set i (aget t j)).set j (aget t i)

/-- The data value behind buffer position `i`: `v[*p]`.  For doubles
numpy's `LT` is plain `<` plus NaN handling; the model has no NaNs. -/
def tval (v : List ℚ) (t : List ℕ) (i : ℕ) : ℚ := v.getD (aget t i) 0

/-- The left-to-right partition scan `do ++pi; while (v[*pi] < vp)`: the
first position strictly right of `pi` whose value is not below the pivot.
The median-of-three sentinels keep the scan inside the segment, so any
fuel at least the buffer length is never exhausted. -/
def scan_right (v : List ℚ) (vp : ℚ) (t : List ℕ) : ℕ → ℕ → ℕ
  | 0, pi => pi + 1
  | fuel + 1, pi =>
    if tval v t (pi + 1) < vp then scan_right v vp t fuel (pi + 1) else pi + 1

/-- The right-to-left partition scan `do --pj; while (vp < v[*pj])`. -/
def scan_left (v : List ℚ) (vp : ℚ) (t : List ℕ) : ℕ → ℕ → ℕ
  | 0, pj => pj - 1
  | fuel + 1, pj =>
    if vp < tval v t (pj - 1) then scan_left v vp t fuel (pj - 1) else pj - 1

/-- The partition exchange loop of `aquicksort_`: scan inward from both
ends and swap each out-of-place pair until the scans cross; returns the
buffer and the crossing position `pi` (no swap on the crossing test). -/
def partition_loop (v : List ℚ) (vp : ℚ) : ℕ → List ℕ → ℕ → ℕ → List ℕ × ℕ
  | 0, t, pi, _ => (t, pi)
  | fuel + 1, t, pi, pj =>
    let pi2 := scan_right v vp t t.length pi
    let pj2 := scan_left v vp t t.length pj
    if pi2 ≥ pj2 then (t, pi2)
    else partition_loop v vp fuel (aswap t pi2 pj2) pi2 pj2

/-- One quicksort partition of the segment `[pl, pr]` (the body of the
inner `while` of `aquicksort_`): median-of-three pivot selection by three
conditional swaps of positions `pl`, `pm`, `pr`; the pivot parked at
`pr - 1`; the exchange loop started at `pi = pl`, `pj = pr - 1`; and the
final swap placing the pivot at the crossing position, which is
returned. -/
def partition_step (v : List ℚ) (t : List ℕ) (pl pr : ℕ) : List ℕ × ℕ :=
  let pm := pl + (pr - pl) / 2
  let t1 := if tval v t pm < tval v t pl then aswap t pm pl else t
  let t2 := if tval v t1 pr < tval v t1 pm then aswap t1 pr pm else t1
  let t3 := if tval v t2 pm < tval v t2 pl then aswap t2 pm pl else t2
  let vp := tval v t3 pm
  let t4 := aswap t3 pm (pr - 1)
  let p := partition_loop v vp (pr - pl + 2) t4 pl (pr - 1)
  (aswap p.1 p.2 (pr - 1), p.2)

/-- The sift-down loop shared by both phases of `aheapsort_`, over the
one-based heap `a[i] = t[pl + i - 1]` of size `n`: follow the larger
child while it beats the sifted value `v[tmp]`; returns the buffer and
the final hole position.  The hole index at least doubles each step, so
any fuel at least `n` is never exhausted. -/
def sift_loop (v : List ℚ) (tmp : ℕ) (pl n : ℕ) : ℕ → List ℕ → ℕ → ℕ → List ℕ × ℕ
  | 0, t, i, _ => (t, i)
  | fuel + 1, t, i, j =>
    if j ≤ n then
      let j2 := if j < n ∧ tval v t (pl + j - 1) < tval v t (pl + j) then j + 1 else j
      if v.getD tmp 0 < tval v t (pl + j2 - 1) then
        sift_loop v tmp pl n fuel (t.set (pl + i - 1) (aget t (pl + j2 - 1))) j2 (j2 + j2)
      else (t, i)
    else (t, i)

/-- The heap construction phase of `aheapsort_`: sift `a[l]` down for
`l = n / 2` to `1`. -/
def heap_build (v : List ℚ) (pl n : ℕ) : ℕ → List ℕ → List ℕ
  | 0, t => t
  | l + 1, t =>
    let tmp := aget t (pl + l)
    let p := sift_loop v tmp pl n (n + 1) t (l + 1) ((l + 1) * 2)
    heap_build v pl n l (p.1.set (pl + p.2 - 1) tmp)

/-- The extraction phase of `aheapsort_`: move the heap root behind the
shrinking heap and re-sift, until one element is left. -/
def heap_extract (v : List ℚ) (pl : ℕ) : ℕ → List ℕ → List ℕ
  | 0, t => t
  | 1, t => t
  | n + 2, t =>
    let tmp := aget t (pl + n + 1)
    let t1 := t.set (pl + n + 1) (aget t pl)
    let p := sift_loop v tmp pl (n + 1) (n + 3) t1 1 2
    heap_extract v pl (n + 1) (p.1.set (pl + p.2 - 1) tmp)

/-- `aheapsort_` on the `n` buffer positions starting at `pl`: the
depth-limit fallback of the introsort driver. -/
def aheapsort (v : List ℚ) (t : List ℕ) (pl n : ℕ) : List ℕ :=
  heap_extract v pl n (heap_build v pl n (n / 2) t)

/-- The terminal insertion sort of `aquicksort_` on a small segment
`[pl, pr]`: the imperative loop inserts each index into the sorted run on
its left, shifting the strictly greater values right, which is the stable
insertion sort of the segment, rendered as the `insertArg` fold and
spliced back into the buffer. -/
def insertion_seg (v : List ℚ) (t : List ℕ) (pl pr : ℕ) : List ℕ :=
  let seg := (t.drop pl).take (pr + 1 - pl)
  let sorted := seg.foldl (fun acc i => insertArg v i acc) []
  t.take pl ++ sorted ++ t.drop (pl + seg.length)

/-- The driver loop of `aquicksort_` on the segment `[pl, pr]`.  A segment
wider than `SMALL_QUICKSORT + 1 = 16` positions is partitioned - or, once
the depth budget is spent, heapsorted - and the two sides are processed
smaller half first, the order the explicit stack of the C code produces;
a segment of at most 16 positions is insertion sorted.  The depth budget
is a single counter tested before and decremented at every partition
attempt (`if (depth_limit-- < 0)`), threaded through the traversal.  Each
recursive call strictly shrinks the segment, so the recursion depth is
below the segment length and fuel `num + 1` is never exhausted. -/
def qs_seg (v : List ℚ) : ℕ → List ℕ → ℕ → ℕ → ℤ → List ℕ × ℤ
  | 0, t, _, _, depth => (t, depth)
  | fuel + 1, t, pl, pr, depth =>
    if pr - pl > 15 then
      if depth < 0 then (aheapsort v t pl (pr - pl + 1), depth - 1)
      else
        let p := partition_step v t pl pr
        if p.2 - pl < pr - p.2 then
          let q := qs_seg v fuel p.1 pl (p.2 - 1) (depth - 1)
          qs_seg v fuel q.1 (p.2 + 1) pr q.2
        else
          let q := qs_seg v fuel p.1 (p.2 + 1) pr (depth - 1)
          qs_seg v fuel q.1 pl (p.2 - 1) q.2
    else (insertion_seg v t pl pr, depth)

/-- `np.argsort` over one row (line 179 or 181): numpy's default
`quicksort`, the introspective sort `aquicksort_` of
npysort/quicksort.c.src, on the index buffer `0, ..., num - 1` with depth
budget `2 * msb(num)`.  The driver partitions only while
`(pr - pl) > SMALL_QUICKSORT` with `SMALL_QUICKSORT = 15`, so a row of at
most 16 elements goes straight to the stable insertion phase
(`np_argsort_of_small` below), while a wider row is partitioned, which
reorders equal values. -/
def np_argsort (v : List ℚ) : List ℕ :=
  (qs_seg v (v.length + 1) (List.range v.length) 0 (v.length - 1)
    ((2 * npy_get_msb v.length : ℕ) : ℤ)).1

/-- Ranked crop-type index rows (lines 178-181): one argsort per surface
row of the objective value matrix, over the negated values for
`CropYield` (descending) and over the values times one otherwise
(ascending). -/
def crop_rank_i_srf_val (obj : String) (vals : List (List ℚ)) : List (List ℕ) :=
  if obj = "CropYield" then vals.map (fun row => np_argsort (row.map (fun x => x * (-1))))
  else vals.map (fun row => np_argsort (row.map (fun x => x * 1)))

/-- A value that is either a numpy ndarray or a plain Python list of rows.
`np.argsort(...)` returns an ndarray; `.tolist()` turns it into a plain
list. -/
inductive NpOrPyList where
  | ndarray (rows : List (List ℕ))
  | pylist (rows : List (List ℕ))
deriving DecidableEq, Repr

/-- The rows held by the value, whatever its Python type. -/
def NpOrPyList.rows : NpOrPyList → List (List ℕ)
  | .ndarray r => r
  | .pylist r => r

/-- `.tolist()`: an ndarray becomes a plain Python list. -/
def NpOrPyList.tolist : NpOrPyList → NpOrPyList
  | .ndarray r => .pylist r
  | .pylist r => .pylist r

/-- The `.shape` attribute: defined on an ndarray, an `AttributeError` on a
plain Python list. -/
def NpOrPyList.shape : NpOrPyList → Except PyErr (ℕ × ℕ)
  | .ndarray r => .ok (r.length, (r.headD []).length)
  | .pylist _ => .error (.attributeError "list object has no attribute shape")

/-- Embedding of `calc_crop_rank` (lines 83-188).  The metrics tables (one
per crop type, read on line 113) are passed as input.  The first component
collects the printed messages; the second is the returned pair or the
exception.  Line 179/181 stores `np.argsort(...).tolist()` - a plain
Python list - into `crop_rank_i_srf`, and line 184 then evaluates
`crop_rank_i_srf.shape[1]`, an attribute lookup that raises
`AttributeError` on a list, so the `Except` value is always an error. -/
def calc_crop_rank (obj : String) (types_crop : List String)
    (tables : List (List BiaMetricsRow)) :
    List String × Except PyErr (List (List ℕ) × List (List String)) :=
  let per := (List.range types_crop.length).map
    (fun c => metric_srf_loop obj (tables.getD c []))
  let log := (per.map Prod.fst).flatten
  let bia_metric_obj_matrix := per.map Prod.snd
  let bia_metric_obj_matrix_df := bia_metric_obj_matrix.transpose
  let crop_rank_i_srf : NpOrPyList :=
    (NpOrPyList.ndarray (crop_rank_i_srf_val obj bia_metric_obj_matrix_df)).tolist
  (log, do
    let _sh ← crop_rank_i_srf.shape
    let crop_rank_type_srf :=
      crop_rank_i_srf.rows.map (fun row => row.map (fun i => types_crop.getD i ""))
    pure (crop_rank_i_srf.rows, crop_rank_type_srf))

/-! ## Calendar Builder (`calc_crop_calendar`, bia_select.py lines 192-260) -/

/-- Stable insertion of a keyed pair into a key-sorted list (Python
`sorted` over `zip(rank_index, lists)`: tuples compare by first component;
the rank indices are distinct, so the second components never get
compared). -/
def insertPairByKey (p : ℕ × List ℕ) : List (ℕ × List ℕ) → List (ℕ × List ℕ)
  | [] => [p]
  | q :: qs => if p.1 < q.1 then p :: q :: qs else q :: insertPairByKey p qs

/-- Python `sorted` of a list of keyed pairs, by key. -/
def sortPairsByKey (l : List (ℕ × List ℕ)) : List (ℕ × List ℕ) :=
  l.foldl (fun acc p => insertPairByKey p acc) []

/-- Line 240: `[x for _, x in sorted(zip(rank_index, profile))]`. -/
def sortedZipSnd (keys : List ℕ) (vals : List (List ℕ)) : List (List ℕ) :=
  (sortPairsByKey (keys.zip vals)).map Prod.snd

/-- A Python value passed to `DataFrame.iat` as a column indexer: either an
integer or a plain Python list (of day numbers). -/
inductive PyIndexer where
  | pyint (n : ℕ)
  | pylist (l : List ℕ)
deriving DecidableEq, Repr

/-- pandas `_iAtIndexer._convert_key`: `iat` requires integer indexers and
raises `ValueError` on anything else, the Python list included. -/
def iatConvertKey : PyIndexer → Except PyErr ℕ
  | .pyint n => .ok n
  | .pylist _ => .error (.valueError "iAt based indexing can only have integer indexers")

/-- A row of the `calendar_to_fill` frame: position `0` models the `srf`
column inserted at `loc := 0`, positions `1..365` the day columns
`0..364` (iat indexing is positional, so a stamp at column position `d`
lands on cell `d` of this row). -/
def calendarRow : List (Option String) := List.replicate 366 none

/-- Write one cell of the calendar frame. -/
def setCell (df : List (List (Option String))) (row col : ℕ) (v : String) :
    List (List (Option String)) :=
  df.set row ((df.getD row []).set col (some v))

/-- The calendar building loops of lines 243-258, taking the crop rank
rows as input (in the source they come from `calc_crop_rank`, line 215).
For each rank position `n` a fresh 365-column frame is created and, for
each surface, line 252 executes
`calendar_to_fill.iat[surface, crop_profile_srf_ranked[surface][n]] = types_crop[n]`;
`crop_profile_srf_ranked[surface][n]` is the whole eligible-day list of
the crop ranked at position `n` - a plain Python list - so the `iat`
indexer validation raises `ValueError` at the first stamp.  The groupby
comma-join of line 258 is computed and its result discarded, as in the
source. -/
def calendar_body (types_crop : List String) (crop_rank_i_srf : List (List ℕ))
    (date_srf_all : List (List (List ℕ))) :
    Except PyErr (List (List (Option String))) := do
  let n_surface := crop_rank_i_srf.length
  let n_crops_type := types_crop.length
  let crop_profile_srf_not_ranked :=
    (List.range n_surface).map (fun s => date_srf_all.map (fun x => x.getD s []))
  let crop_profile_srf_ranked :=
    (List.range n_surface).map (fun s =>
      sortedZipSnd (crop_rank_i_srf.getD s []) (crop_profile_srf_not_ranked.getD s []))
  let calendar_to_merge ← (List.range n_crops_type).foldlM
    (fun (dfs : List (List (List (Option String)))) n => do
      let init := (List.range n_surface).map (fun _ => calendarRow)
      let filled ← (List.range n_surface).foldlM
        (fun df s => do
          let col ← iatConvertKey
            (.pylist ((crop_profile_srf_ranked.getD s []).getD n []))
          pure (setCell df s col (types_crop.getD n "")))
        init
      pure (dfs ++ [filled]))
    []
  let bia_calendar_srf_df := calendar_to_merge.flatten
  pure bia_calendar_srf_df

/-- Embedding of `calc_crop_calendar` (lines 192-260).  Line 215 first
calls `calc_crop_rank`; its exception propagates.  `date_srf_all` is the
per-crop-type result of `calc_crop_cycle` (lines 222-227).

Modelled from the spec: `calc_crop_cycle` lives in
`bia.equation.bia_crop_cycle`, which is not under `src/`; per the spec it
supplies, per crop type and per surface, the list of eligible growing
days (`0..364`), so its output is taken as the input `date_srf_all`. -/
def calc_crop_calendar (obj : String) (types_crop : List String)
    (tables : List (List BiaMetricsRow)) (date_srf_all : List (List (List ℕ))) :
    List String × Except PyErr (List (List (Option String))) :=
  let r := calc_crop_rank obj types_crop tables
  (r.1, do
    let p ← r.2
    calendar_body types_crop p.1 date_srf_all)

/-! ## Claims C5, C6, C7: the Radiation Filter -/

lemma filter_clean_eq (roof wall : Bool) (thr : ℚ) (rad : List (String × List ℚ))
    (meta : List SensorMeta) :
    (filter_low_potential roof wall thr rad meta).sensors_metadata_clean =
      (policy_filtered roof wall (merged_metadata rad meta)).filter
        (fun p => decide (thr * 1000 ≤ p.2)) := rfl

lemma filter_radclean_eq (roof wall : Bool) (thr : ℚ) (rad : List (String × List ℚ))
    (meta : List SensorMeta) :
    (filter_low_potential roof wall thr rad meta).sensors_rad_clean =
      ((filter_low_potential roof wall thr rad meta).sensors_metadata_clean.map
          (fun p => p.1.SURFACE)).filterMap
        (fun sid => rad.find? (fun c => c.1 == sid)) := rfl

lemma filter_max_eq (roof wall : Bool) (thr : ℚ) (rad : List (String × List ℚ))
    (meta : List SensorMeta) :
    (filter_low_potential roof wall thr rad meta).max_annual_radiation =
      listMax ((sensors_rad_sum_of rad).map Prod.snd) := rfl

lemma mem_policy_filtered (roof wall : Bool) (l : List (SensorMeta × ℚ))
    (x : SensorMeta × ℚ) :
    x ∈ policy_filtered roof wall l ↔
      x ∈ l ∧ (x.1.TYPE = "roofs" → roof = true) ∧ (x.1.TYPE = "walls" → wall = true) := by
  unfold policy_filtered
  cases roof <;> cases wall <;> simp [List.mem_filter] <;> tauto

lemma mem_merged_metadata (rad : List (String × List ℚ)) (meta : List SensorMeta)
    (p : SensorMeta × ℚ) (hp : p ∈ merged_metadata rad meta) :
    p.1 ∈ meta ∧ ∃ c ∈ rad, c.1 = p.1.SURFACE ∧ p.2 = c.2.sum := by
  obtain ⟨m, hm, hfm⟩ := List.mem_filterMap.mp hp
  cases hfind : (sensors_rad_sum_of rad).find? (fun c => c.1 == m.SURFACE) with
  | none => rw [hfind] at hfm; cases hfm
  | some c =>
    rw [hfind] at hfm
    simp only [Option.map_some'] at hfm
    have hc1 : c.1 = m.SURFACE := by
      have := List.find?_some hfind
      simpa using this
    obtain ⟨orig, horig, heq⟩ := List.mem_map.mp (List.mem_of_find?_eq_some hfind)
    have hfm2 : (m, c.2) = p := by injection hfm
    subst hfm2
    have ho1 : orig.1 = c.1 := congrArg Prod.fst heq
    have ho2 : orig.2.sum = c.2 := congrArg Prod.snd heq
    exact ⟨hm, orig, horig, by rw [ho1]; exact hc1, ho2.symm⟩

lemma map_fst_filterMap_find? (ids : List String) (rad : List (String × List ℚ))
    (h : ∀ sid ∈ ids, ∃ c ∈ rad, c.1 = sid) :
    (ids.filterMap (fun sid => rad.find? (fun c => c.1 == sid))).map Prod.fst = ids := by
  induction ids with
  | nil => rfl
  | cons sid ids ih =>
    obtain ⟨c, hc, hceq⟩ := h sid (List.mem_cons_self sid ids)
    have hsome : (rad.find? (fun c => c.1 == sid)).isSome :=
      List.find?_isSome.mpr ⟨c, hc, by simp [hceq]⟩
    obtain ⟨d, hd⟩ := Option.isSome_iff_exists.mp hsome
    have hd1 : d.1 = sid := by
      have := List.find?_some hd
      simpa using this
    simp only [List.filterMap_cons, hd, List.map_cons]
    rw [hd1, ih (fun x hx => h x (List.mem_cons_of_mem _ hx))]

lemma clean_ids_have_columns (roof wall : Bool) (thr : ℚ) (rad : List (String × List ℚ))
    (meta : List SensorMeta) :
    ∀ p ∈ (filter_low_potential roof wall thr rad meta).sensors_metadata_clean,
      ∃ c ∈ rad, c.1 = p.1.SURFACE := by
  intro p hp
  rw [filter_clean_eq] at hp
  have hp2 := (List.mem_filter.mp hp).1
  have hp3 := ((mem_policy_filtered roof wall _ p).mp hp2).1
  obtain ⟨_, c, hc, hceq, _⟩ := mem_merged_metadata rad meta p hp3
  exact ⟨c, hc, hceq⟩

/-- C5: the filtered radiation table and the filtered metadata of
`filter_low_potential` reference an identical sensor-id list (same
identifiers, same cardinality, same order), and every filtered radiation
column name is a column name of the input radiation table. -/
theorem filter_low_potential_alignment (roof wall : Bool) (thr : ℚ)
    (rad : List (String × List ℚ)) (meta : List SensorMeta) :
    ((filter_low_potential roof wall thr rad meta).sensors_rad_clean.map Prod.fst =
      (filter_low_potential roof wall thr rad meta).sensors_metadata_clean.map
        (fun p => p.1.SURFACE)) ∧
    ∀ sid ∈ (filter_low_potential roof wall thr rad meta).sensors_rad_clean.map Prod.fst,
      sid ∈ rad.map Prod.fst := by
  constructor
  · rw [filter_radclean_eq]
    apply map_fst_filterMap_find?
    intro sid hsid
    obtain ⟨p, hp, hpeq⟩ := List.mem_map.mp hsid
    obtain ⟨c, hc, hceq⟩ := clean_ids_have_columns roof wall thr rad meta p hp
    exact ⟨c, hc, by rw [hceq, hpeq]⟩
  · intro sid hsid
    rw [filter_radclean_eq] at hsid
    obtain ⟨q, hq, hqeq⟩ := List.mem_map.mp hsid
    obtain ⟨a, _, hfind⟩ := List.mem_filterMap.mp hq
    have := List.mem_of_find?_eq_some hfind
    exact List.mem_map.mpr ⟨q, this, hqeq⟩

lemma find?_rad_sum_eq (rad : List (String × List ℚ)) (r : String × List ℚ)
    (hnd : (rad.map Prod.fst).Nodup) (hr : r ∈ rad) :
    (sensors_rad_sum_of rad).find? (fun c => c.1 == r.1) = some (r.1, r.2.sum) := by
  induction rad with
  | nil => cases hr
  | cons a l ih =>
    have hnd' : (l.map Prod.fst).Nodup := (List.nodup_cons.mp (by simpa using hnd)).2
    by_cases hab : a.1 = r.1
    · have hra : r = a := by
        rcases List.mem_cons.mp hr with h | h
        · exact h
        · exfalso
          have hmem1 : r.1 ∈ l.map Prod.fst := List.mem_map.mpr ⟨r, h, rfl⟩
          rw [← hab] at hmem1
          exact (List.nodup_cons.mp (by simpa using hnd)).1 hmem1
      subst hra
      simp [sensors_rad_sum_of, List.find?_cons, hab]
    · have hr' : r ∈ l := by
        rcases List.mem_cons.mp hr with h | h
        · exact absurd (congrArg Prod.fst h.symm) hab
        · exact h
      have hstep : sensors_rad_sum_of (a :: l) =
          (a.1, a.2.sum) :: sensors_rad_sum_of l := rfl
      rw [hstep, List.find?_cons]
      have hfalse : ((a.1, a.2.sum).1 == r.1) = false := by
        simp [hab]
      rw [hfalse]
      exact ih hnd' hr'

/-- C6: assuming distinct radiation column names, a metadata sensor with a
radiation column appears in the filtered metadata of
`filter_low_potential` if and only if its surface type passes the policy
flags (roof rows need `crop_on_roof`, wall rows need `crop_on_wall`) and
its total annual radiation is at least `annual_radiation_threshold * 1000`
(inclusive); window sensors always pass the policy. -/
theorem filter_low_potential_survival (roof wall : Bool) (thr : ℚ)
    (rad : List (String × List ℚ)) (meta : List SensorMeta)
    (hnd : (rad.map Prod.fst).Nodup) (m : SensorMeta) (hm : m ∈ meta)
    (r : String × List ℚ) (hr : r ∈ rad) (hid : r.1 = m.SURFACE) :
    ((∃ p ∈ (filter_low_potential roof wall thr rad meta).sensors_metadata_clean,
        p.1 = m) ↔
      ((m.TYPE = "roofs" → roof = true) ∧ (m.TYPE = "walls" → wall = true) ∧
        thr * 1000 ≤ r.2.sum)) ∧
    (m.TYPE = "windows" →
      ((m.TYPE = "roofs" → roof = true) ∧ (m.TYPE = "walls" → wall = true))) := by
  constructor
  · constructor
    · rintro ⟨p, hp, hpm⟩
      rw [filter_clean_eq] at hp
      have hp1 := (List.mem_filter.mp hp).1
      have hthr := (List.mem_filter.mp hp).2
      have hp2 := (mem_policy_filtered roof wall _ p).mp hp1
      obtain ⟨_, c, hc, hceq, hsum⟩ := mem_merged_metadata rad meta p hp2.1
      have hcr : c = r := by
        have h1 : c.1 = r.1 := by rw [hceq, hpm, hid]
        have := List.inj_on_of_nodup_map hnd hc hr h1
        exact this
      refine ⟨by rw [← hpm]; exact hp2.2.1, by rw [← hpm]; exact hp2.2.2, ?_⟩
      have : thr * 1000 ≤ p.2 := by simpa using hthr
      rw [hsum, hcr] at this
      exact this
    · rintro ⟨hroof, hwall, hthr⟩
      refine ⟨(m, r.2.sum), ?_, rfl⟩
      rw [filter_clean_eq]
      apply List.mem_filter.mpr
      refine ⟨?_, by simpa using hthr⟩
      apply (mem_policy_filtered roof wall _ _).mpr
      refine ⟨?_, hroof, hwall⟩
      apply List.mem_filterMap.mpr
      refine ⟨m, hm, ?_⟩
      have hkey : (sensors_rad_sum_of rad).find? (fun c => c.1 == m.SURFACE) =
          some (r.1, r.2.sum) := by
        rw [← hid]
        exact find?_rad_sum_eq rad r hnd hr
      rw [hkey]
      simp
  · intro hw
    constructor
    · intro h2; rw [hw] at h2; exact absurd h2 (by decide)
    · intro h2; rw [hw] at h2; exact absurd h2 (by decide)

/-- C6 witness: a concrete window sensor above the threshold survives. -/
theorem filter_low_potential_survival_witness :
    ∃ p ∈ (filter_low_potential false false 1
        [("win1", [1500, 600])] [⟨"win1", "windows", "north", 3⟩]).sensors_metadata_clean,
      p.1 = (⟨"win1", "windows", "north", 3⟩ : SensorMeta) :=
  ((filter_low_potential_survival false false 1
      [("win1", [1500, 600])] [⟨"win1", "windows", "north", 3⟩]
      (by decide) ⟨"win1", "windows", "north", 3⟩ (by decide)
      ("win1", [1500, 600]) (by decide) (by decide)).1).mpr
    ⟨by intro h; exact absurd h (by decide), by intro h; exact absurd h (by decide),
      by norm_num⟩

/-- Specification-side reading of claim C7: the maximum annual radiation
over the sensors that survive the roof/wall policy removal. -/
def spec_post_policy_max (roof wall : Bool) (rad : List (String × List ℚ))
    (meta : List SensorMeta) : ℚ :=
  listMax ((policy_filtered roof wall (merged_metadata rad meta)).map Prod.snd)

def exRadC7 : List (String × List ℚ) := [("roof1", [5000]), ("wall1", [1000])]

def exMetaC7 : List SensorMeta :=
  [⟨"roof1", "roofs", "top", 12⟩, ⟨"wall1", "walls", "north", 5⟩]

/-- C7 counterexample: with `crop_on_roof := false` the roof sensor is
removed by the policy, yet `max_annual_radiation` is still its annual sum
`5000`, not the post-policy maximum `1000` the claim requires. -/
theorem filter_low_potential_max_counterexample :
    (filter_low_potential false true 0 exRadC7 exMetaC7).max_annual_radiation = 5000 ∧
    spec_post_policy_max false true exRadC7 exMetaC7 = 1000 ∧
    (5000 : ℚ) ≠ 1000 := by
  refine ⟨?_, ?_, by decide⟩
  · rw [filter_max_eq]
    norm_num [sensors_rad_sum_of, exRadC7, listMax]
  · norm_num [spec_post_policy_max, policy_filtered, merged_metadata, sensors_rad_sum_of,
      exRadC7, exMetaC7, listMax, List.find?]
    decide

/-- C7 (amended): `max_annual_radiation` is the maximum of the annual sums
over all sensors of the input radiation table, taken before any removal -
policy or threshold - so a policy-excluded sensor can determine it. -/
theorem filter_low_potential_max_global (roof wall : Bool) (thr : ℚ)
    (rad : List (String × List ℚ)) (meta : List SensorMeta) (hne : rad ≠ []) :
    (∀ c ∈ rad,
        c.2.sum ≤ (filter_low_potential roof wall thr rad meta).max_annual_radiation) ∧
    ∃ c ∈ rad,
      (filter_low_potential roof wall thr rad meta).max_annual_radiation = c.2.sum := by
  constructor
  · intro c hc
    rw [filter_max_eq]
    exact le_listMax _ _ (List.mem_map.mpr ⟨(c.1, c.2.sum),
      List.mem_map.mpr ⟨c, hc, rfl⟩, rfl⟩)
  · have hne' : (sensors_rad_sum_of rad).map Prod.snd ≠ [] := by
      cases rad with
      | nil => exact absurd rfl hne
      | cons a l => simp [sensors_rad_sum_of]
    obtain ⟨c', hc', heq⟩ := List.mem_map.mp (listMax_mem _ hne')
    obtain ⟨c, hc, heq2⟩ := List.mem_map.mp hc'
    refine ⟨c, hc, ?_⟩
    rw [filter_max_eq, ← heq, ← heq2]

/-- C7 amended-claim witness at a concrete input. -/
theorem filter_low_potential_max_global_witness :
    ∃ c ∈ exRadC7,
      (filter_low_potential false true 0 exRadC7 exMetaC7).max_annual_radiation = c.2.sum :=
  (filter_low_potential_max_global false true 0 exRadC7 exMetaC7 (by decide)).2

/-! ## Claim C8: the DLI Converter -/

lemma filterMap_enumFrom_div24 (L : List (List ℚ)) : ∀ (n d : ℕ),
    ((List.enumFrom n L).filterMap (fun p => if p.1 / 24 = d then some p.2 else none)) =
      (L.drop (24 * d - n)).take (24 - (n - 24 * d)) := by
  induction L with
  | nil => intro n d; simp
  | cons r L ih =>
    intro n d
    show (((n, r) :: List.enumFrom (n + 1) L).filterMap
        (fun p => if p.1 / 24 = d then some p.2 else none)) = _
    rw [List.filterMap_cons]
    by_cases hcase : n / 24 = d
    · simp only [hcase, if_true]
      rw [ih (n + 1) d]
      rw [show 24 * d - n = 0 from by omega]
      rw [show 24 * d - (n + 1) = 0 from by omega]
      rw [show 24 - (n - 24 * d) = (24 - (n + 1 - 24 * d)) + 1 from by omega]
      rw [List.drop_zero, List.drop_zero, List.take_succ_cons]
    · simp only [if_neg hcase]
      rw [ih (n + 1) d]
      by_cases hlt : n < 24 * d
      · rw [show 24 - (n - 24 * d) = 24 from by omega,
          show 24 - (n + 1 - 24 * d) = 24 from by omega,
          show 24 * d - n = (24 * d - (n + 1)) + 1 from by omega,
          List.drop_succ_cons]
      · rw [show 24 - (n - 24 * d) = 0 from by omega,
          show 24 - (n + 1 - 24 * d) = 0 from by omega]
        simp

lemma sum_rows_length (w : ℕ) : ∀ (rs : List (List ℚ)), rs ≠ [] →
    (∀ r ∈ rs, r.length = w) → (sum_rows rs).length = w := by
  intro rs
  induction rs with
  | nil => intro h; exact absurd rfl h
  | cons r rs ih =>
    intro _ hlen
    cases rs with
    | nil => exact hlen r (List.mem_cons_self r [])
    | cons r2 rs2 =>
      have h1 : (sum_rows (r2 :: rs2)).length = w :=
        ih (by simp) (fun x hx => hlen x (List.mem_cons_of_mem r hx))
      have h2 : r.length = w := hlen r (List.mem_cons_self r _)
      show (List.zipWith (· + ·) r (sum_rows (r2 :: rs2))).length = w
      rw [List.length_zipWith, h1, h2, min_self]

lemma sum_rows_getD (w : ℕ) : ∀ (rs : List (List ℚ)), (∀ r ∈ rs, r.length = w) → ∀ s,
    (sum_rows rs).getD s 0 = (rs.map (fun r => r.getD s 0)).sum := by
  intro rs
  induction rs with
  | nil => intro _ s; simp [sum_rows]
  | cons r rs ih =>
    intro hlen s
    cases rs with
    | nil => simp [sum_rows]
    | cons r2 rs2 =>
      have h1 : (sum_rows (r2 :: rs2)).length = w :=
        sum_rows_length w _ (by simp) (fun x hx => hlen x (List.mem_cons_of_mem r hx))
      have h2 : r.length = w := hlen r (List.mem_cons_self r _)
      have hzip := getD_zipWith_add r (sum_rows (r2 :: rs2)) s (by rw [h1, h2])
      show (List.zipWith (· + ·) r (sum_rows (r2 :: rs2))).getD s 0 = _
      rw [hzip, ih (fun x hx => hlen x (List.mem_cons_of_mem r hx)) s]
      simp

lemma drop_take_getD (L : List (List ℚ)) (a b : ℕ) (h : a + b ≤ L.length) :
    (L.drop a).take b = (List.range b).map (fun k => L.getD (a + k) []) := by
  apply List.ext_get
  · simp only [List.length_take, List.length_drop, List.length_map, List.length_range]
    omega
  · intro i h1 h2
    simp only [List.get_eq_getElem]
    have hd : i < (L.drop a).length := by
      simp only [List.length_take] at h1
      exact lt_of_lt_of_le h1 (min_le_right _ _)
    rw [List.getElem_take (L.drop a), List.getElem_drop L]
    rw [List.getElem_map, List.getElem_range]
    have hlt : a + i < L.length := by
      simp only [List.length_drop] at hd
      omega
    rw [List.getD_eq_getElem L [] hlt]

lemma dli_outer (rows : List (List ℚ)) (d : ℕ) (hd : d < 365) :
    (calc_Whperm2_molperm2 rows).getD d [] =
      sum_rows (((dli_scaled rows).enum).filterMap
        (fun p => if p.1 / 24 = d then some p.2 else none)) := by
  unfold calc_Whperm2_molperm2
  rw [List.getD_eq_getElem _ _ (by simpa using hd), List.getElem_map, List.getElem_range]

lemma dli_chunk_eq (rows : List (List ℚ)) (hlen : rows.length = 8760) (d : ℕ)
    (hd : d < 365) :
    ((dli_scaled rows).enum).filterMap (fun p => if p.1 / 24 = d then some p.2 else none) =
      (List.range 24).map (fun k => (dli_scaled rows).getD (24 * d + k) []) := by
  have hslen : (dli_scaled rows).length = 8760 := by
    simp [dli_scaled, hlen]
  rw [List.enum_eq_enumFrom, filterMap_enumFrom_div24 (dli_scaled rows) 0 d]
  rw [show 24 * d - 0 = 24 * d from by omega, show 24 - (0 - 24 * d) = 24 from by omega]
  exact drop_take_getD (dli_scaled rows) (24 * d) 24 (by omega)

lemma dli_chunk_len (rows : List (List ℚ)) (w : ℕ) (hlen : rows.length = 8760)
    (hw : ∀ r ∈ rows, r.length = w) (d : ℕ) (hd : d < 365) :
    ∀ r ∈ (List.range 24).map (fun k => (dli_scaled rows).getD (24 * d + k) []),
      r.length = w := by
  intro r hr
  obtain ⟨k, hk, hkeq⟩ := List.mem_map.mp hr
  subst hkeq
  have hkr := List.mem_range.mp hk
  have hi : 24 * d + k < rows.length := by omega
  simp only [dli_scaled]
  rw [List.getD_eq_getElem _ [] (by simpa using hi), List.getElem_map, List.length_map]
  exact hw _ (List.getElem_mem _)

/-- Per-entry description of the DLI conversion for an 8760-row table: day
`d`, sensor `s` holds the sum over hours `24 d .. 24 d + 23` of the scaled
hourly values. -/
lemma calc_Whperm2_molperm2_entry (rows : List (List ℚ)) (w : ℕ)
    (hlen : rows.length = 8760) (hw : ∀ r ∈ rows, r.length = w)
    (d s : ℕ) (hd : d < 365) (hs : s < w) :
    ((calc_Whperm2_molperm2 rows).getD d []).getD s 0 =
      ((List.range 24).map (fun k =>
        dli_scale ((rows.getD (24 * d + k) []).getD s 0))).sum := by
  rw [dli_outer rows d hd, dli_chunk_eq rows hlen d hd,
    sum_rows_getD w _ (dli_chunk_len rows w hlen hw d hd) s, List.map_map]
  congr 1
  apply List.map_congr_left
  intro k hk
  have hkr := List.mem_range.mp hk
  have hi : 24 * d + k < rows.length := by omega
  have hs2 : s < (rows.getD (24 * d + k) []).length := by
    rw [List.getD_eq_getElem rows [] hi, hw _ (List.getElem_mem _)]
    exact hs
  simp only [Function.comp_apply, dli_scaled]
  rw [List.getD_eq_getElem _ [] (by simpa using hi), List.getElem_map]
  rw [List.getD_eq_getElem rows [] hi] at hs2 ⊢
  rw [List.getD_eq_getElem _ 0 (by simpa using hs2), List.getElem_map,
    List.getD_eq_getElem _ 0 hs2]

/-- C8 (amended): for every 8760-row hourly table whose rows all have `w`
entries, the DLI output has exactly 365 day rows, each with one value per
sensor in the input sensor order, and the value for day `d`, sensor `s`
is the sum over hourly rows `24 d .. 24 d + 23` of
`value * 0.45 * (4.57 * 3600) / 10^6` (the `dli_scale` of the source); a
column of 8760 values all equal to `100` therefore yields 365 daily
values of exactly `17.76816` mol per m2 per day, not the `177.8` the
claim quotes. -/
theorem calc_Whperm2_molperm2_daily (rows : List (List ℚ)) (w : ℕ)
    (hlen : rows.length = 8760) (hw : ∀ r ∈ rows, r.length = w) :
    (calc_Whperm2_molperm2 rows).length = 365 ∧
    (∀ r ∈ calc_Whperm2_molperm2 rows, r.length = w) ∧
    ∀ d s : ℕ, d < 365 → s < w →
      ((calc_Whperm2_molperm2 rows).getD d []).getD s 0 =
        ((List.range 24).map (fun k =>
          dli_scale ((rows.getD (24 * d + k) []).getD s 0))).sum := by
  refine ⟨?_, ?_, fun d s hd hs => calc_Whperm2_molperm2_entry rows w hlen hw d s hd hs⟩
  · unfold calc_Whperm2_molperm2
    simp
  · intro r hr
    unfold calc_Whperm2_molperm2 at hr
    simp only [List.mem_map, List.mem_range] at hr
    obtain ⟨d, hd, hdeq⟩ := hr
    subst hdeq
    rw [dli_chunk_eq rows hlen d hd]
    exact sum_rows_length w _ (by simp) (dli_chunk_len rows w hlen hw d hd)

/-- Hourly radiation table of the end-to-end scenario of the claim: one
sensor column, all 8760 values equal to 100 Wh per m2. -/
def exDliRows : List (List ℚ) := List.replicate 8760 [100]

/-- C8 counterexample: on the all-100 column the daily DLI value is
exactly `111051 / 6250 = 17.76816`, which is below 100 and therefore not
approximately 177.8 as the claim states. -/
theorem calc_Whperm2_molperm2_counterexample :
    ((calc_Whperm2_molperm2 exDliRows).getD 0 []).getD 0 0 = 111051 / 6250 ∧
    ¬ ((100 : ℚ) ≤ 111051 / 6250) := by
  constructor
  · rw [calc_Whperm2_molperm2_entry exDliRows 1
      (by simp only [exDliRows, List.length_replicate])
      (fun r hr => by rw [List.eq_of_mem_replicate hr]; rfl) 0 0 (by norm_num)
      (by norm_num)]
    have hconst : ∀ k ∈ List.range 24,
        dli_scale ((exDliRows.getD (24 * 0 + k) []).getD 0 0) = dli_scale 100 := by
      intro k hk
      have hk24 := List.mem_range.mp hk
      have hkl : 24 * 0 + k < exDliRows.length := by
        simp only [exDliRows, List.length_replicate]
        omega
      simp only [exDliRows] at hkl ⊢
      rw [List.getD_eq_getElem _ [] hkl, List.getElem_replicate]
      rfl
    rw [List.map_congr_left hconst, List.map_const', List.length_range,
      List.sum_replicate, nsmul_eq_mul]
    norm_num [dli_scale]
  · norm_num

/-- C8 witness: the amended theorem instantiated on the scenario table,
each hypothesis discharged concretely. -/
theorem calc_Whperm2_molperm2_daily_witness :
    (calc_Whperm2_molperm2 exDliRows).length = 365 ∧
    ((calc_Whperm2_molperm2 exDliRows).getD 0 []).getD 0 0 =
      ((List.range 24).map (fun k =>
        dli_scale ((exDliRows.getD (24 * 0 + k) []).getD 0 0))).sum :=
  ⟨(calc_Whperm2_molperm2_daily exDliRows 1
      (by simp only [exDliRows, List.length_replicate])
      (fun r hr => by rw [List.eq_of_mem_replicate hr]; rfl)).1,
    (calc_Whperm2_molperm2_daily exDliRows 1
      (by simp only [exDliRows, List.length_replicate])
      (fun r hr => by rw [List.eq_of_mem_replicate hr]; rfl)).2.2 0 0
      (by norm_num) (by norm_num)⟩

/-! ## Claim C2: the crop ranking order (lines 176-186) -/

/-- The strict lexicographic order the stable argsort establishes on
index pairs: strictly smaller value first, ties in index order. -/
def argOrder (v : List ℚ) (i j : ℕ) : Prop :=
  v.getD i 0 < v.getD j 0 ∨ (v.getD i 0 = v.getD j 0 ∧ i < j)

lemma insertArg_mem (v : List ℚ) (i : ℕ) : ∀ (l : List ℕ) (a : ℕ),
    a ∈ insertArg v i l ↔ a = i ∨ a ∈ l := by
  intro l
  induction l with
  | nil => intro a; simp [insertArg]
  | cons j js ih =>
    intro a
    simp only [insertArg]
    by_cases h : v.getD i 0 < v.getD j 0
    · rw [if_pos h]
      simp only [List.mem_cons]
    · rw [if_neg h]
      simp only [List.mem_cons, ih a]
      try tauto

lemma insertArg_pairwise (v : List ℚ) (i : ℕ) : ∀ (l : List ℕ),
    l.Pairwise (argOrder v) → (∀ j ∈ l, j < i) →
    (insertArg v i l).Pairwise (argOrder v) := by
  intro l
  induction l with
  | nil => intro _ _; simp [insertArg]
  | cons j js ih =>
    intro hp hlt
    obtain ⟨hj, hjs⟩ := List.pairwise_cons.mp hp
    simp only [insertArg]
    by_cases h : v.getD i 0 < v.getD j 0
    · rw [if_pos h]
      apply List.pairwise_cons.mpr
      refine ⟨?_, hp⟩
      intro a ha
      rcases List.mem_cons.mp ha with rfl | ha2
      · left; exact h
      · rcases hj a ha2 with h1 | h1
        · left; exact lt_trans h h1
        · left; rw [← h1.1]; exact h
    · rw [if_neg h]
      apply List.pairwise_cons.mpr
      constructor
      · intro a ha
        rcases (insertArg_mem v i js a).mp ha with rfl | ha2
        · rcases lt_or_eq_of_le (not_lt.mp h) with h1 | h1
          · left; exact h1
          · right; exact ⟨h1, hlt j (List.mem_cons_self j js)⟩
        · exact hj a ha2
      · exact ih hjs (fun x hx => hlt x (List.mem_cons_of_mem j hx))

lemma foldl_insertArg_pairwise (v : List ℚ) : ∀ (l acc : List ℕ),
    acc.Pairwise (argOrder v) → (∀ j ∈ acc, ∀ i ∈ l, j < i) →
    l.Pairwise (· < ·) →
    (l.foldl (fun a i => insertArg v i a) acc).Pairwise (argOrder v) := by
  intro l
  induction l with
  | nil => intro acc h _ _; exact h
  | cons i l ih =>
    intro acc hacc hcross hl
    obtain ⟨hi, hl2⟩ := List.pairwise_cons.mp hl
    apply ih
    · exact insertArg_pairwise v i acc hacc
        (fun j hj => hcross j hj i (List.mem_cons_self i l))
    · intro j hj i2 hi2
      rcases (insertArg_mem v i acc j).mp hj with rfl | hj2
      · exact hi i2 hi2
      · exact hcross j hj2 i2 (List.mem_cons_of_mem i hi2)
    · exact hl2

lemma np_argsort_of_small (v : List ℚ) (h : v.length ≤ 16) :
    np_argsort v = insertion_argsort v := by
  unfold np_argsort
  rw [qs_seg, if_neg (by omega)]
  show insertion_seg v (List.range v.length) 0 (v.length - 1) = insertion_argsort v
  have htake : (List.range v.length).take (v.length - 1 + 1) = List.range v.length := by
    apply List.take_of_length_le
    rw [List.length_range]
    omega
  simp only [insertion_seg, insertion_argsort, List.drop_zero, Nat.sub_zero, htake,
    List.take_zero, List.nil_append, zero_add, List.drop_length, List.append_nil]

lemma insertion_argsort_pairwise (v : List ℚ) :
    (insertion_argsort v).Pairwise (argOrder v) := by
  unfold insertion_argsort
  apply foldl_insertArg_pairwise v (List.range v.length) []
  · exact List.Pairwise.nil
  · intro j hj; cases hj
  · exact List.pairwise_lt_range _

lemma np_argsort_pairwise (v : List ℚ) (h16 : v.length ≤ 16) :
    (np_argsort v).Pairwise (argOrder v) := by
  rw [np_argsort_of_small v h16]
  exact insertion_argsort_pairwise v

lemma insertArg_perm (v : List ℚ) (i : ℕ) : ∀ (l : List ℕ),
    (insertArg v i l).Perm (i :: l) := by
  intro l
  induction l with
  | nil => simp [insertArg]
  | cons j js ih =>
    simp only [insertArg]
    by_cases h : v.getD i 0 < v.getD j 0
    · rw [if_pos h]
    · rw [if_neg h]
      exact (List.Perm.cons j ih).trans (List.Perm.swap i j js)

lemma foldl_insertArg_perm (v : List ℚ) : ∀ (l acc : List ℕ),
    (l.foldl (fun a i => insertArg v i a) acc).Perm (acc ++ l) := by
  intro l
  induction l with
  | nil => intro acc; simp
  | cons i l ih =>
    intro acc
    have h1 := ih (insertArg v i acc)
    have h2 : (insertArg v i acc ++ l).Perm ((i :: acc) ++ l) :=
      (insertArg_perm v i acc).append_right l
    have h3 : ((i :: acc) ++ l).Perm (acc ++ i :: l) := by
      rw [List.cons_append]
      exact List.perm_middle.symm
    exact (h1.trans h2).trans h3

lemma np_argsort_perm (v : List ℚ) (h16 : v.length ≤ 16) :
    (np_argsort v).Perm (List.range v.length) := by
  rw [np_argsort_of_small v h16]
  unfold insertion_argsort
  simpa using foldl_insertArg_perm v (List.range v.length) []

lemma np_argsort_sorted_getD (v : List ℚ) (h16 : v.length ≤ 16) (a b : ℕ) (hab : a < b)
    (hb : b < (np_argsort v).length) :
    argOrder v ((np_argsort v).getD a 0) ((np_argsort v).getD b 0) := by
  have hp := (List.pairwise_iff_get.mp (np_argsort_pairwise v h16))
  have ha : a < (np_argsort v).length := lt_trans hab hb
  have h := hp ⟨a, ha⟩ ⟨b, hb⟩ hab
  rw [List.get_eq_getElem, List.get_eq_getElem] at h
  rw [List.getD_eq_getElem _ 0 ha, List.getD_eq_getElem _ 0 hb]
  exact h

lemma np_argsort_mem_lt (v : List ℚ) (h16 : v.length ≤ 16) (x : ℕ)
    (hx : x ∈ np_argsort v) : x < v.length :=
  List.mem_range.mp (((np_argsort_perm v h16)).mem_iff.mp hx)

lemma getD_map_mul (l : List ℚ) (c : ℚ) (i : ℕ) (hi : i < l.length) :
    (l.map (fun x => x * c)).getD i 0 = l.getD i 0 * c := by
  rw [List.getD_eq_getElem _ 0 (by simpa using hi), List.getElem_map,
    List.getD_eq_getElem _ 0 hi]

lemma crop_rank_row (obj : String) (vals : List (List ℚ)) (s : ℕ) (hs : s < vals.length) :
    (crop_rank_i_srf_val obj vals).getD s [] =
      (if obj = "CropYield" then np_argsort ((vals.getD s []).map (fun x => x * (-1)))
       else np_argsort ((vals.getD s []).map (fun x => x * 1))) := by
  unfold crop_rank_i_srf_val
  by_cases h : obj = "CropYield"
  · rw [if_pos h, if_pos h]
    rw [List.getD_eq_getElem _ _ (by simpa using hs), List.getElem_map,
      List.getD_eq_getElem _ _ hs]
  · rw [if_neg h, if_neg h]
    rw [List.getD_eq_getElem _ _ (by simpa using hs), List.getElem_map,
      List.getD_eq_getElem _ _ hs]

lemma np_argsort_getD_lt (row : List ℚ) (h16 : row.length ≤ 16) (c : ℚ) (a : ℕ)
    (ha : a < (np_argsort (row.map (fun x => x * c))).length) :
    (np_argsort (row.map (fun x => x * c))).getD a 0 < row.length := by
  have hmem : (np_argsort (row.map (fun x => x * c))).getD a 0 ∈
      np_argsort (row.map (fun x => x * c)) := by
    rw [List.getD_eq_getElem _ 0 ha]
    exact List.getElem_mem ha
  have := np_argsort_mem_lt _ (by simpa using h16) _ hmem
  simpa using this

lemma argsort_neg_spec (row : List ℚ) (h16 : row.length ≤ 16) (a b : ℕ) (hab : a < b)
    (hb : b < (np_argsort (row.map (fun x => x * (-1)))).length) :
    row.getD ((np_argsort (row.map (fun x => x * (-1)))).getD b 0) 0 ≤
      row.getD ((np_argsort (row.map (fun x => x * (-1)))).getD a 0) 0 ∧
    (row.getD ((np_argsort (row.map (fun x => x * (-1)))).getD a 0) 0 =
      row.getD ((np_argsort (row.map (fun x => x * (-1)))).getD b 0) 0 →
      (np_argsort (row.map (fun x => x * (-1)))).getD a 0 <
        (np_argsort (row.map (fun x => x * (-1)))).getD b 0) := by
  have ha : a < (np_argsort (row.map (fun x => x * (-1)))).length := lt_trans hab hb
  have hsort := np_argsort_sorted_getD (row.map (fun x => x * (-1)))
    (by simpa using h16) a b hab hb
  have hra := np_argsort_getD_lt row h16 (-1) a ha
  have hrb := np_argsort_getD_lt row h16 (-1) b hb
  rw [argOrder, getD_map_mul row (-1) _ hra, getD_map_mul row (-1) _ hrb] at hsort
  rcases hsort with h | h
  · constructor
    · linarith
    · intro heq; exfalso; rw [heq] at h; linarith
  · constructor
    · have : row.getD ((np_argsort (row.map (fun x => x * (-1)))).getD a 0) 0 =
          row.getD ((np_argsort (row.map (fun x => x * (-1)))).getD b 0) 0 := by
        linarith [h.1]
      linarith
    · intro _; exact h.2

lemma argsort_pos_spec (row : List ℚ) (h16 : row.length ≤ 16) (a b : ℕ) (hab : a < b)
    (hb : b < (np_argsort (row.map (fun x => x * 1))).length) :
    row.getD ((np_argsort (row.map (fun x => x * 1))).getD a 0) 0 ≤
      row.getD ((np_argsort (row.map (fun x => x * 1))).getD b 0) 0 ∧
    (row.getD ((np_argsort (row.map (fun x => x * 1))).getD a 0) 0 =
      row.getD ((np_argsort (row.map (fun x => x * 1))).getD b 0) 0 →
      (np_argsort (row.map (fun x => x * 1))).getD a 0 <
        (np_argsort (row.map (fun x => x * 1))).getD b 0) := by
  have ha : a < (np_argsort (row.map (fun x => x * 1))).length := lt_trans hab hb
  have hsort := np_argsort_sorted_getD (row.map (fun x => x * 1))
    (by simpa using h16) a b hab hb
  have hra := np_argsort_getD_lt row h16 1 a ha
  have hrb := np_argsort_getD_lt row h16 1 b hb
  rw [argOrder, getD_map_mul row 1 _ hra, getD_map_mul row 1 _ hrb,
    mul_one, mul_one] at hsort
  rcases hsort with h | h
  · constructor
    · exact le_of_lt h
    · intro heq; exfalso; rw [heq] at h; exact lt_irrefl _ h
  · exact ⟨le_of_eq h.1, fun _ => h.2⟩

/-- C2 counterexample: the claim as stated fails on a wide tied row.  On
the 17-crop-type matrix whose single surface row holds seventeen equal
objective values, the ranking of lines 176-186 (here under the
`GHGEmission` ascending branch of line 181) is not the identity
permutation that stability would force: numpy's default argsort runs a
quicksort partition for any row wider than 16 elements, and the partition
swaps tied indices past one another.  Rank positions 1 and 2 come out
holding crop indices 14 and 13, whose objective values are equal, yet
14 < 13 fails: crop types with equal objective values do not keep their
original relative position. -/
theorem calc_crop_rank_order_counterexample :
    (crop_rank_i_srf_val "GHGEmission" [List.replicate 17 (3 : ℚ)]).getD 0 [] =
      [0, 14, 13, 12, 11, 10, 9, 15, 8, 6, 5, 4, 3, 2, 1, 7, 16] ∧
    ((crop_rank_i_srf_val "GHGEmission" [List.replicate 17 (3 : ℚ)]).getD 0 []).getD 1 0 = 14 ∧
    ((crop_rank_i_srf_val "GHGEmission" [List.replicate 17 (3 : ℚ)]).getD 0 []).getD 2 0 = 13 ∧
    (List.replicate 17 (3 : ℚ)).getD 14 0 = (List.replicate 17 (3 : ℚ)).getD 13 0 ∧
    ¬ (14 : ℕ) < 13 := by
  have hmap : (List.replicate 17 (3 : ℚ)).map (fun x => x * 1) =
      List.replicate 17 (3 : ℚ) := by
    rw [List.map_replicate]; norm_num
  have h1 : (crop_rank_i_srf_val "GHGEmission" [List.replicate 17 (3 : ℚ)]).getD 0 [] =
      [0, 14, 13, 12, 11, 10, 9, 15, 8, 6, 5, 4, 3, 2, 1, 7, 16] := by
    unfold crop_rank_i_srf_val
    rw [if_neg (by decide)]
    simp only [List.map_cons, List.map_nil, List.getD_cons_zero]
    rw [hmap]
    decide
  refine ⟨h1, by rw [h1]; rfl, by rw [h1]; rfl, by decide, by decide⟩


/-- C2 (amended): on a per-surface objective value matrix whose rows hold
at most 16 crop types - the regime where numpy's default argsort runs
only its stable insertion phase, and the regime of a configured crop type
list - the ranking built on lines 176-186 of bia_select.py gives, for
every surface, a permutation of the crop type indices that is sorted
descending in the objective value when the objective is `CropYield` and
ascending for every other recognised objective, and crop types with equal
objective values keep their original relative order.  Rows wider than 16
elements are instead partitioned by numpy's quicksort, which reorders
ties (`calc_crop_rank_order_counterexample`). -/
theorem calc_crop_rank_order (obj : String) (hobj : obj ∈ recognizedObjectives)
    (vals : List (List ℚ)) (s : ℕ) (hs : s < vals.length)
    (h16 : (vals.getD s []).length ≤ 16) :
    ((crop_rank_i_srf_val obj vals).getD s []).Perm
      (List.range (vals.getD s []).length) ∧
    (∀ a b : ℕ, a < b → b < ((crop_rank_i_srf_val obj vals).getD s []).length →
      ((obj = "CropYield" →
        (vals.getD s []).getD (((crop_rank_i_srf_val obj vals).getD s []).getD b 0) 0 ≤
          (vals.getD s []).getD (((crop_rank_i_srf_val obj vals).getD s []).getD a 0) 0) ∧
       (obj ≠ "CropYield" →
        (vals.getD s []).getD (((crop_rank_i_srf_val obj vals).getD s []).getD a 0) 0 ≤
          (vals.getD s []).getD (((crop_rank_i_srf_val obj vals).getD s []).getD b 0) 0) ∧
       ((vals.getD s []).getD (((crop_rank_i_srf_val obj vals).getD s []).getD a 0) 0 =
          (vals.getD s []).getD (((crop_rank_i_srf_val obj vals).getD s []).getD b 0) 0 →
        ((crop_rank_i_srf_val obj vals).getD s []).getD a 0 <
          ((crop_rank_i_srf_val obj vals).getD s []).getD b 0))) := by
  rw [crop_rank_row obj vals s hs]
  by_cases hcy : obj = "CropYield"
  · rw [if_pos hcy]
    constructor
    · have := np_argsort_perm ((vals.getD s []).map (fun x => x * (-1)))
        (by simpa using h16)
      simpa using this
    · intro a b hab hb
      have h := argsort_neg_spec (vals.getD s []) h16 a b hab hb
      exact ⟨fun _ => h.1, fun hne => absurd hcy hne, h.2⟩
  · rw [if_neg hcy]
    constructor
    · have := np_argsort_perm ((vals.getD s []).map (fun x => x * 1))
        (by simpa using h16)
      simpa using this
    · intro a b hab hb
      have h := argsort_pos_spec (vals.getD s []) h16 a b hab hb
      exact ⟨fun hy => absurd hy hcy, fun _ => h.1, h.2⟩

/-- C2 witness: the `CropYield` ranking of the two-crop yield row `[5, 3]`
of a single surface - a row within the 16-element insertion regime - is a
permutation of the two crop indices, with the best yield at rank 0. -/
theorem calc_crop_rank_order_witness :
    ((crop_rank_i_srf_val "CropYield" [[(5 : ℚ), 3]]).getD 0 []).Perm (List.range 2) := by
  have h := (calc_crop_rank_order "CropYield" (by decide) [[(5 : ℚ), 3]] 0
    (by norm_num) (by decide)).1
  simpa using h

/-! ## Claims C3, C4, C1: `calc_crop_rank` and `calc_crop_calendar` -/

/-- Example crop type configuration used by the concrete evaluations. -/
def exTypes : List String := ["Lettuce", "Tomato"]

/-- Metrics row of the first example crop type. -/
def exTable1 : BiaMetricsRow := ⟨5, 1, 2, 3, 4, 6⟩

/-- Metrics row of the second example crop type. -/
def exTable2 : BiaMetricsRow := ⟨3, 2, 1, 5, 2, 2⟩

/-- Per-crop-type metrics tables of one surface. -/
def exTables : List (List BiaMetricsRow) := [[exTable1], [exTable2]]

/-- C3: for every recognised objective, nonempty crop type list and
metrics tables each holding at least one surface, `calc_crop_rank` raises
instead of returning: line 179/181 stores `np.argsort(...).tolist()` - a
plain Python list - into `crop_rank_i_srf`, and line 184 then evaluates
`crop_rank_i_srf.shape[1]`, an `AttributeError` on a list, so the
documented pair of rank lists is never produced. -/
theorem calc_crop_rank_always_raises (obj : String) (types_crop : List String)
    (tables : List (List BiaMetricsRow)) (hobj : obj ∈ recognizedObjectives)
    (htypes : types_crop ≠ []) (htables : ∀ t ∈ tables, t ≠ []) :
    (calc_crop_rank obj types_crop tables).2 =
      Except.error (PyErr.attributeError "list object has no attribute shape") := rfl

/-- C3 witness: the failure on a concrete two-crop, one-surface input with
the `CropYield` objective. -/
theorem calc_crop_rank_always_raises_witness :
    (calc_crop_rank "CropYield" exTypes exTables).2 =
      Except.error (PyErr.attributeError "list object has no attribute shape") :=
  calc_crop_rank_always_raises "CropYield" exTypes exTables (by decide) (by decide)
    (by decide)

/-- C4 counterexample: with the unrecognised objective `Banana` the error
message is printed once per crop type - twice here, so the run continued
past the first report instead of halting eagerly - no objective value is
computed, and the halt is the generic `AttributeError` of line 184, never
a configuration error. -/
theorem unknown_objective_counterexample :
    (calc_crop_rank "Banana" exTypes exTables).1 =
      ["Error: user to define the objective BIA metric.",
       "Error: user to define the objective BIA metric."] ∧
    (calc_crop_rank "Banana" exTypes exTables).2 =
      Except.error (PyErr.attributeError "list object has no attribute shape") ∧
    ∀ msg, (calc_crop_rank "Banana" exTypes exTables).2 ≠
      Except.error (PyErr.configurationError msg) := by
  refine ⟨rfl, rfl, ?_⟩
  intro msg h
  rw [show (calc_crop_rank "Banana" exTypes exTables).2 =
    Except.error (PyErr.attributeError "list object has no attribute shape") from rfl] at h
  simp at h

lemma objValue_none (obj : String) (hobj : obj ∉ recognizedObjectives)
    (r : BiaMetricsRow) : objValue obj r = none := by
  unfold recognizedObjectives at hobj
  simp only [List.mem_cons, List.not_mem_nil, or_false, not_or] at hobj
  obtain ⟨h1, h2, h3, h4, h5, h6, h7, h8, h9, h10⟩ := hobj
  unfold objValue
  rw [if_neg h1, if_neg h2, if_neg h3, if_neg h4, if_neg h5, if_neg h6, if_neg h7,
    if_neg h8, if_neg h9, if_neg h10]

lemma metric_srf_loop_unknown (obj : String) (hobj : obj ∉ recognizedObjectives)
    (t : List BiaMetricsRow) (ht : t ≠ []) :
    metric_srf_loop obj t = (["Error: user to define the objective BIA metric."], []) := by
  cases t with
  | nil => exact absurd rfl ht
  | cons r rest =>
    simp only [metric_srf_loop, objValue_none obj hobj r]

lemma flatten_replicate_singleton {α : Type} (n : ℕ) (x : α) :
    (List.replicate n [x]).flatten = List.replicate n x := by
  induction n with
  | zero => rfl
  | succ n ih => simp [List.replicate_succ, ih]

/-- C4 (amended): an unrecognised objective is not validated eagerly and
is not a fatal configuration error: `calc_crop_rank` prints the error
message once per crop type from inside the per-surface loop, computes no
objective value, and then raises the same `AttributeError` as for
recognised objectives while building the ranked table; so no ranking or
calendar output is produced, but no configuration exception is raised
either. -/
theorem unknown_objective_amended (obj : String) (types_crop : List String)
    (tables : List (List BiaMetricsRow)) (hobj : obj ∉ recognizedObjectives)
    (hlen : tables.length = types_crop.length) (hne : ∀ t ∈ tables, t ≠ []) :
    (calc_crop_rank obj types_crop tables).1 =
      List.replicate types_crop.length
        "Error: user to define the objective BIA metric." ∧
    (calc_crop_rank obj types_crop tables).2 =
      Except.error (PyErr.attributeError "list object has no attribute shape") := by
  constructor
  · have h1 : (calc_crop_rank obj types_crop tables).1 =
        (((List.range types_crop.length).map
          (fun c => metric_srf_loop obj (tables.getD c []))).map Prod.fst).flatten := rfl
    have h2 : ((List.range types_crop.length).map
        (fun c => metric_srf_loop obj (tables.getD c []))).map Prod.fst =
        (List.range types_crop.length).map
          (fun _ => ["Error: user to define the objective BIA metric."]) := by
      rw [List.map_map]
      apply List.map_congr_left
      intro c hc
      have hc2 : c < tables.length := by
        rw [hlen]; exact List.mem_range.mp hc
      have hmem : tables.getD c [] ∈ tables := by
        rw [List.getD_eq_getElem tables [] hc2]
        exact List.getElem_mem _
      simp only [Function.comp_apply]
      rw [metric_srf_loop_unknown obj hobj _ (hne _ hmem)]
    rw [h1, h2, List.map_const', List.length_range, flatten_replicate_singleton]
  · rfl

/-- C4 amended-claim witness at a concrete one-crop input. -/
theorem unknown_objective_amended_witness :
    (calc_crop_rank "Banana" ["Lettuce"] [[exTable1]]).1 =
      List.replicate 1 "Error: user to define the objective BIA metric." ∧
    (calc_crop_rank "Banana" ["Lettuce"] [[exTable1]]).2 =
      Except.error (PyErr.attributeError "list object has no attribute shape") :=
  unknown_objective_amended "Banana" ["Lettuce"] [[exTable1]] (by decide) rfl (by decide)

/-- Eligible growing days of the end-to-end scenario: crop 0 has days
`[10, 200]` and crop 1 has days `[20, 220]` on the single surface. -/
def exDates : List (List (List ℕ)) := [[[10, 200]], [[20, 220]]]

/-- C1 (the code at the failing input): on the end-to-end scenario of the
spec - two crop types with eligible-day lists `[10, 200]` and `[20, 220]`
on one surface, rank `[0, 1]` under `CropYield` - no calendar is ever
built.  `calc_crop_calendar` propagates the `AttributeError` raised inside
`calc_crop_rank` (line 215), and even running the calendar loops with the
rank pair the source documents, the very first stamp of line 252 passes
the whole eligible-day list to `DataFrame.iat`, which rejects non-integer
indexers with `ValueError`; the comma-join merge of line 258 is never
reached, and its result is discarded in the source anyway. -/
theorem calc_crop_calendar_never_builds :
    (calc_crop_calendar "CropYield" exTypes exTables exDates).2 =
      Except.error (PyErr.attributeError "list object has no attribute shape") ∧
    calendar_body exTypes [[0, 1]] exDates =
      Except.error
        (PyErr.valueError "iAt based indexing can only have integer indexers") := by
  exact ⟨rfl, rfl⟩

/-! ## Claim C9: floor assignment -/

lemma cutAdj_pos (x : ℚ) : 0 < cutAdj x := by
  unfold cutAdj
  by_cases h : x = 0
  · rw [if_pos h]; norm_num
  · rw [if_neg h]
    have := abs_pos.mpr h
    positivity

lemma cutEdges_count_nondeg (n : ℕ) (zs : List ℚ) (z : ℚ)
    (hmnz : listMin zs ≤ z) (hlt : listMin zs < listMax zs) :
    (cutEdges n zs).countP (fun e => decide (e < z)) =
      ((List.range n).countP (fun j : ℕ =>
        decide (listMin zs + (listMax zs - listMin zs) * ((j : ℚ) + 1) / (n : ℚ) < z))) +
        1 := by
  unfold cutEdges
  rw [if_neg (ne_of_lt hlt)]
  rw [List.countP_cons, List.countP_map]
  have hpos : (0 : ℚ) < (listMax zs - listMin zs) / 1000 := by
    have h1 : (0 : ℚ) < listMax zs - listMin zs := sub_pos.mpr hlt
    positivity
  have he0 : (decide (listMin zs - (listMax zs - listMin zs) / 1000 < z)) = true := by
    simp only [decide_eq_true_eq]
    linarith
  rw [he0]
  simp only [if_true, Function.comp_def]

lemma cut_pred_downclosed (n : ℕ) (zs : List ℚ) (z : ℚ)
    (hle : listMin zs ≤ listMax zs) :
    ∀ i j : ℕ, i ≤ j →
      (decide (listMin zs + (listMax zs - listMin zs) * ((j : ℚ) + 1) / (n : ℚ) < z))
        = true →
      (decide (listMin zs + (listMax zs - listMin zs) * ((i : ℚ) + 1) / (n : ℚ) < z))
        = true := by
  intro i j hij hj
  simp only [decide_eq_true_eq] at hj ⊢
  by_cases hn0 : n = 0
  · subst hn0
    simpa using hj
  · have hn0' : (0 : ℚ) < (n : ℚ) := by
      exact_mod_cast Nat.pos_of_ne_zero hn0
    have hij' : ((i : ℚ) + 1) ≤ ((j : ℚ) + 1) := by
      have : (i : ℚ) ≤ (j : ℚ) := by exact_mod_cast hij
      linarith
    have hmono : (listMax zs - listMin zs) * ((i : ℚ) + 1) / (n : ℚ) ≤
        (listMax zs - listMin zs) * ((j : ℚ) + 1) / (n : ℚ) := by
      apply (div_le_div_right hn0').mpr
      exact mul_le_mul_of_nonneg_left hij' (by linarith)
    linarith

lemma cutEdges_cprime_lt (n : ℕ) (hn : 1 ≤ n) (zs : List ℚ) (z : ℚ)
    (hzmx : z ≤ listMax zs) (hlt : listMin zs < listMax zs) :
    (List.range n).countP (fun j : ℕ =>
      decide (listMin zs + (listMax zs - listMin zs) * ((j : ℚ) + 1) / (n : ℚ) < z)) <
      n := by
  have hn0 : (0 : ℚ) < (n : ℚ) := by exact_mod_cast hn
  have hfacts := countP_range_downclosed _
    (cut_pred_downclosed n zs z (le_of_lt hlt)) n
  by_contra hcon
  push_neg at hcon
  have hcnt := hfacts.1 (n - 1) (by omega)
  simp only [decide_eq_true_eq] at hcnt
  have hcast : ((n - 1 : ℕ) : ℚ) + 1 = (n : ℚ) := by
    rw [Nat.cast_sub hn]
    ring
  rw [hcast, mul_div_assoc, div_self (ne_of_gt hn0), mul_one] at hcnt
  linarith

lemma cutEdges_count_bounds (n : ℕ) (hn : 1 ≤ n) (zs : List ℚ) (z : ℚ) (hz : z ∈ zs) :
    1 ≤ (cutEdges n zs).countP (fun e => decide (e < z)) ∧
    (cutEdges n zs).countP (fun e => decide (e < z)) ≤ n := by
  have hmnz : listMin zs ≤ z := listMin_le zs z hz
  have hzmx : z ≤ listMax zs := le_listMax zs z hz
  have hn0 : (0 : ℚ) < (n : ℚ) := by exact_mod_cast hn
  by_cases hdeg : listMin zs = listMax zs
  · have hzeq : z = listMin zs := le_antisymm (by rw [hdeg]; exact hzmx) hmnz
    unfold cutEdges
    rw [if_pos hdeg, List.countP_map, ← hdeg]
    have ha := cutAdj_pos (listMin zs)
    have key : ∀ j ∈ List.range (n + 1),
        (((fun e => decide (e < z)) ∘ fun j : ℕ =>
          (listMin zs - cutAdj (listMin zs)) +
            ((listMin zs + cutAdj (listMin zs)) - (listMin zs - cutAdj (listMin zs))) *
              (j : ℚ) / (n : ℚ)) j = true ↔
          (fun j : ℕ => decide (2 * j < n)) j = true) := by
      intro j _
      simp only [Function.comp_def, decide_eq_true_eq]
      rw [hzeq]
      rw [show ((listMin zs + cutAdj (listMin zs)) - (listMin zs - cutAdj (listMin zs))) =
        2 * cutAdj (listMin zs) from by ring]
      constructor
      · intro h
        have h2 : 2 * cutAdj (listMin zs) * (j : ℚ) / (n : ℚ) < cutAdj (listMin zs) := by
          linarith
        rw [div_lt_iff hn0] at h2
        rw [show (2 : ℚ) * cutAdj (listMin zs) * (j : ℚ) =
          cutAdj (listMin zs) * (2 * (j : ℚ)) from by ring] at h2
        have h3 := (mul_lt_mul_left ha).mp h2
        exact_mod_cast h3
      · intro h
        have h3 : (2 : ℚ) * (j : ℚ) < (n : ℚ) := by exact_mod_cast h
        have h4 := (mul_lt_mul_left ha).mpr h3
        rw [show cutAdj (listMin zs) * (2 * (j : ℚ)) =
          2 * cutAdj (listMin zs) * (j : ℚ) from by ring] at h4
        have h2 := (div_lt_iff hn0).mpr h4
        linarith
    rw [List.countP_congr key]
    have hdc : ∀ i j : ℕ, i ≤ j → (fun j : ℕ => decide (2 * j < n)) j = true →
        (fun j : ℕ => decide (2 * j < n)) i = true := by
      intro i j hij hj
      simp only [decide_eq_true_eq] at hj ⊢
      omega
    have hfacts := countP_range_downclosed (fun j : ℕ => decide (2 * j < n)) hdc (n + 1)
    constructor
    · by_contra hcon
      push_neg at hcon
      have hz0 := hfacts.2 0 (by omega) (by omega)
      simp only [decide_eq_false_iff_not] at hz0
      omega
    · by_contra hcon
      push_neg at hcon
      have hzn := hfacts.1 n (by omega)
      simp only [decide_eq_true_eq] at hzn
      omega
  · have hlt : listMin zs < listMax zs := lt_of_le_of_ne (le_trans hmnz hzmx) hdeg
    rw [cutEdges_count_nondeg n zs z hmnz hlt]
    have := cutEdges_cprime_lt n hn zs z hzmx hlt
    omega

lemma cutEdges_containment (n : ℕ) (hn : 1 ≤ n) (zs : List ℚ) (z : ℚ) (hz : z ∈ zs)
    (hlt : listMin zs < listMax zs) :
    z ≤ listMin zs +
      (listMax zs - listMin zs) * ((pdCutBin n zs z : ℚ) + 1) / (n : ℚ) ∧
    (pdCutBin n zs z = 0 ∨
      listMin zs + (listMax zs - listMin zs) * (pdCutBin n zs z : ℚ) / (n : ℚ) < z) := by
  have hmnz : listMin zs ≤ z := listMin_le zs z hz
  have hzmx : z ≤ listMax zs := le_listMax zs z hz
  unfold pdCutBin
  rw [cutEdges_count_nondeg n zs z hmnz hlt]
  simp only [Nat.add_sub_cancel]
  have hfacts := countP_range_downclosed _
    (cut_pred_downclosed n zs z (le_of_lt hlt)) n
  have hclt := cutEdges_cprime_lt n hn zs z hzmx hlt
  constructor
  · have hnot := hfacts.2 _ (le_refl _) hclt
    simp only [decide_eq_false_iff_not] at hnot
    linarith [not_lt.mp hnot]
  · by_cases hc0 : (List.range n).countP (fun j : ℕ =>
        decide (listMin zs + (listMax zs - listMin zs) * ((j : ℚ) + 1) / (n : ℚ) < z))
        = 0
    · left; exact hc0
    · right
      have hge : 1 ≤ (List.range n).countP (fun j : ℕ =>
          decide (listMin zs + (listMax zs - listMin zs) * ((j : ℚ) + 1) / (n : ℚ) < z)) := by
        omega
      have hmem := hfacts.1 ((List.range n).countP (fun j : ℕ =>
          decide (listMin zs + (listMax zs - listMin zs) * ((j : ℚ) + 1) / (n : ℚ) < z))
          - 1) (by omega)
      simp only [decide_eq_true_eq] at hmem
      have hcast : (((List.range n).countP (fun j : ℕ =>
          decide (listMin zs + (listMax zs - listMin zs) * ((j : ℚ) + 1) / (n : ℚ) < z))
          - 1 : ℕ) : ℚ) + 1 =
          (((List.range n).countP (fun j : ℕ =>
            decide (listMin zs + (listMax zs - listMin zs) * ((j : ℚ) + 1) / (n : ℚ) < z))
            : ℕ) : ℚ) := by
        rw [Nat.cast_sub hge]
        ring
      rw [hcast] at hmem
      exact hmem

lemma facade_z_mem (meta : List SensorMeta) (k : ℕ) (hk : k < meta.length)
    (hor : (meta.getD k default).orientation ≠ "top") :
    (meta.getD k default).Zcoor ∈ facadeZs meta := by
  unfold facadeZs
  apply List.mem_map.mpr
  refine ⟨meta.getD k default, ?_, rfl⟩
  apply List.mem_filter.mpr
  constructor
  · rw [List.getD_eq_getElem meta default hk]
    exact List.getElem_mem _
  · simp only [Bool.not_eq_true', beq_eq_false_iff_ne]
    exact hor

lemma floor_getD (N : ℕ) (meta : List SensorMeta) (k : ℕ) (hk : k < meta.length) :
    (calc_sensor_floor_number N meta).getD k 0 =
      sensorFloor N meta (meta.getD k default) := by
  unfold calc_sensor_floor_number
  rw [List.getD_eq_getElem _ _ (by simpa using hk), List.getElem_map,
    List.getD_eq_getElem _ _ hk]

/-- C9: for a building with `N ≥ 1` floors and at least one facade sensor,
`calc_sensor_floor_number` gives every roof sensor (orientation `top`)
floor `0`, and every facade sensor a floor in `[1, N]` equal to one plus
its `pd.cut` bin; when the observed facade elevation range is not
degenerate the floor `f` satisfies the equal width bin containment:
`z ≤ mn + (mx - mn) * f / N`, and either `f = 1` or
`mn + (mx - mn) * (f - 1) / N < z`. -/
theorem calc_sensor_floor_number_spec (N : ℕ) (meta : List SensorMeta) (hN : 1 ≤ N)
    (hfac : facadeZs meta ≠ []) (k : ℕ) (hk : k < meta.length) :
    ((meta.getD k default).orientation = "top" →
      (calc_sensor_floor_number N meta).getD k 0 = 0) ∧
    ((meta.getD k default).orientation ≠ "top" →
      1 ≤ (calc_sensor_floor_number N meta).getD k 0 ∧
      (calc_sensor_floor_number N meta).getD k 0 ≤ N ∧
      (listMin (facadeZs meta) < listMax (facadeZs meta) →
        (meta.getD k default).Zcoor ≤ listMin (facadeZs meta) +
          (listMax (facadeZs meta) - listMin (facadeZs meta)) *
            (((calc_sensor_floor_number N meta).getD k 0 : ℚ)) / (N : ℚ) ∧
        ((calc_sensor_floor_number N meta).getD k 0 = 1 ∨
          listMin (facadeZs meta) + (listMax (facadeZs meta) - listMin (facadeZs meta)) *
            ((((calc_sensor_floor_number N meta).getD k 0 - 1 : ℕ)) : ℚ) / (N : ℚ) <
            (meta.getD k default).Zcoor))) := by
  constructor
  · intro htop
    rw [floor_getD N meta k hk]
    unfold sensorFloor
    rw [if_pos (beq_iff_eq.mpr htop)]
  · intro hor
    rw [floor_getD N meta k hk]
    unfold sensorFloor
    rw [if_neg (fun h => hor (beq_iff_eq.mp h))]
    have hzmem := facade_z_mem meta k hk hor
    obtain ⟨hb1, hb2⟩ := cutEdges_count_bounds N hN (facadeZs meta) _ hzmem
    have hbin2 : pdCutBin N (facadeZs meta) (meta.getD k default).Zcoor + 1 ≤ N := by
      unfold pdCutBin
      omega
    refine ⟨by omega, hbin2, ?_⟩
    intro hlt
    have hcont := cutEdges_containment N hN (facadeZs meta) _ hzmem hlt
    constructor
    · have hcast : ((pdCutBin N (facadeZs meta) (meta.getD k default).Zcoor + 1 : ℕ) : ℚ) =
          ((pdCutBin N (facadeZs meta) (meta.getD k default).Zcoor : ℚ) + 1) := by
        push_cast
        ring
      rw [hcast]
      exact hcont.1
    · rcases hcont.2 with h | h
      · left
        omega
      · right
        rw [show (pdCutBin N (facadeZs meta) (meta.getD k default).Zcoor + 1 - 1 : ℕ) =
          pdCutBin N (facadeZs meta) (meta.getD k default).Zcoor from by omega]
        exact h

/-- Example metadata of claim C9: two facade sensors and one roof sensor. -/
def exMetaC9 : List SensorMeta :=
  [⟨"f1", "walls", "north", 0⟩, ⟨"f2", "windows", "north", 10⟩,
   ⟨"r1", "roofs", "top", 12⟩]

/-- C9 witness: on the concrete building with `N = 2`, the roof sensor
gets floor `0` and the lowest facade sensor a floor between 1 and 2. -/
theorem calc_sensor_floor_number_spec_witness :
    (calc_sensor_floor_number 2 exMetaC9).getD 2 0 = 0 ∧
    (1 ≤ (calc_sensor_floor_number 2 exMetaC9).getD 0 0 ∧
      (calc_sensor_floor_number 2 exMetaC9).getD 0 0 ≤ 2) := by
  constructor
  · exact (calc_sensor_floor_number_spec 2 exMetaC9 (by decide) (by decide) 2
      (by decide)).1 (by decide)
  · have h := (calc_sensor_floor_number_spec 2 exMetaC9 (by decide) (by decide) 0
      (by decide)).2 (by decide)
    exact ⟨h.1, h.2.1⟩

/-! ## Claim C10: wall zone assignment -/

lemma nat_init_le_foldl_max (l : List ℕ) : ∀ a : ℕ, a ≤ l.foldl max a := by
  induction l with
  | nil => intro a; simp
  | cons x l ih =>
    intro a
    calc a ≤ max a x := le_max_left a x
    _ ≤ l.foldl max (max a x) := ih (max a x)
    _ = (x :: l).foldl max a := rfl

lemma nat_mem_le_foldl_max (l : List ℕ) : ∀ (a x : ℕ), x ∈ l → x ≤ l.foldl max a := by
  induction l with
  | nil => intro a x hx; cases hx
  | cons y l ih =>
    intro a x hx
    rcases List.mem_cons.mp hx with h | h
    · subst h
      calc x ≤ max a x := le_max_right a x
      _ ≤ l.foldl max (max a x) := nat_init_le_foldl_max l (max a x)
      _ = (x :: l).foldl max a := rfl
    · exact ih (max a y) x h

lemma find?_map_snd_unique {β : Type} (sid : String) (v : β) :
    ∀ (l : List (String × β)), (∃ p ∈ l, p.1 = sid) →
      (∀ p ∈ l, p.1 = sid → p.2 = v) →
      ((l.find? (fun p => p.1 == sid)).map Prod.snd) = some v := by
  intro l
  induction l with
  | nil => intro hex _; obtain ⟨p, hp, _⟩ := hex; cases hp
  | cons q l ih =>
    intro hex huniq
    by_cases hq : q.1 = sid
    · have hv : q.2 = v := huniq q (List.mem_cons_self q l) hq
      rw [List.find?_cons]
      have htrue : (q.1 == sid) = true := beq_iff_eq.mpr hq
      rw [htrue]
      rw [Option.map_some', hv]
    · rw [List.find?_cons]
      have hfalse : (q.1 == sid) = false := by
        simp [hq]
      rw [hfalse]
      apply ih
      · obtain ⟨p, hp, hpeq⟩ := hex
        rcases List.mem_cons.mp hp with rfl | hp2
        · exact absurd hpeq hq
        · exact ⟨p, hp2, hpeq⟩
      · intro p hp hpeq
        exact huniq p (List.mem_cons_of_mem q hp) hpeq

lemma wall_type_pairs_from (N : ℕ) (meta : List SensorMeta) (p : String × String)
    (hp : p ∈ wall_type_pairs N meta) :
    ∃ t ∈ meta, t.TYPE = "walls" ∧ p.1 = t.SURFACE := by
  unfold wall_type_pairs at hp
  obtain ⟨o, ho, hp2⟩ := List.mem_flatMap.mp hp
  obtain ⟨j0, hj0, hp3⟩ := List.mem_flatMap.mp hp2
  obtain ⟨t, ht, hteq⟩ := List.mem_map.mp hp3
  obtain ⟨htmem, htcond⟩ := List.mem_filter.mp ht
  simp only [Bool.and_eq_true, beq_iff_eq] at htcond
  exact ⟨t, htmem, htcond.2, by rw [← hteq]⟩

lemma wall_type_pairs_mem_self (N : ℕ) (meta : List SensorMeta) (s : SensorMeta)
    (hs : s ∈ meta) (hty : s.TYPE = "walls") (hor : s.orientation ∈ orientations)
    (hfl1 : 1 ≤ sensorFloor N meta s)
    (hfl2 : sensorFloor N meta s ≤ (calc_sensor_floor_number N meta).foldl max 0) :
    (s.SURFACE, wallLabel (pandasMedian ((meta.filter (fun u =>
        u.orientation == s.orientation &&
        sensorFloor N meta u == sensorFloor N meta s &&
        u.TYPE == "windows")).map SensorMeta.Zcoor)) s.Zcoor) ∈
      wall_type_pairs N meta := by
  unfold wall_type_pairs
  apply List.mem_flatMap.mpr
  refine ⟨s.orientation, hor, ?_⟩
  apply List.mem_flatMap.mpr
  refine ⟨sensorFloor N meta s - 1, List.mem_range.mpr (by omega), ?_⟩
  have hj : sensorFloor N meta s - 1 + 1 = sensorFloor N meta s := by omega
  rw [hj]
  apply List.mem_map.mpr
  refine ⟨s, ?_, rfl⟩
  apply List.mem_filter.mpr
  refine ⟨hs, ?_⟩
  simp [hty]

lemma wall_type_pairs_unique (N : ℕ) (meta : List SensorMeta)
    (hnd : (meta.map SensorMeta.SURFACE).Nodup) (s : SensorMeta) (hs : s ∈ meta)
    (p : String × String) (hp : p ∈ wall_type_pairs N meta) (hid : p.1 = s.SURFACE) :
    p.2 = wallLabel (pandasMedian ((meta.filter (fun u =>
        u.orientation == s.orientation &&
        sensorFloor N meta u == sensorFloor N meta s &&
        u.TYPE == "windows")).map SensorMeta.Zcoor)) s.Zcoor := by
  unfold wall_type_pairs at hp
  obtain ⟨o, ho, hp2⟩ := List.mem_flatMap.mp hp
  obtain ⟨j0, hj0, hp3⟩ := List.mem_flatMap.mp hp2
  obtain ⟨t, ht, hteq⟩ := List.mem_map.mp hp3
  obtain ⟨htmem, htcond⟩ := List.mem_filter.mp ht
  simp only [Bool.and_eq_true, beq_iff_eq] at htcond
  obtain ⟨⟨hto, htf⟩, _⟩ := htcond
  have hts : t = s := by
    apply List.inj_on_of_nodup_map hnd htmem hs
    rw [← hid, ← hteq]
  subst hts
  rw [← hteq, ← hto, ← htf]

lemma wall_res_eq (N : ℕ) (meta : List SensorMeta) (k : ℕ) (hk : k < meta.length) :
    (calc_sensor_wall_type N meta).getD k "" =
      (((wall_type_pairs N meta).find?
        (fun p => p.1 == (meta.getD k default).SURFACE)).map Prod.snd).getD
        "non_wall" := by
  unfold calc_sensor_wall_type
  rw [List.getD_eq_getElem _ _ (by simpa using hk), List.getElem_map,
    List.getD_eq_getElem meta default hk]

/-- C10: with distinct `SURFACE` ids, `calc_sensor_wall_type` labels every
window sensor `non_wall`, and every wall sensor of one of the four facade
orientations by comparison against the median elevation of the window
sensors sharing its orientation and computed floor: strictly above the
median gives `upper`, strictly below gives `lower`, equal gives `side`,
and when that cell has no window sensors at all (no median), the wall
sensor is labelled `side`. -/
theorem calc_sensor_wall_type_spec (N : ℕ) (meta : List SensorMeta)
    (hnd : (meta.map SensorMeta.SURFACE).Nodup) (k : ℕ) (hk : k < meta.length) :
    ((meta.getD k default).TYPE = "windows" →
      (calc_sensor_wall_type N meta).getD k "" = "non_wall") ∧
    ((meta.getD k default).TYPE = "walls" →
      (meta.getD k default).orientation ∈ orientations →
      (((meta.filter (fun u => u.orientation == (meta.getD k default).orientation &&
          sensorFloor N meta u == sensorFloor N meta (meta.getD k default) &&
          u.TYPE == "windows")).map SensorMeta.Zcoor) = [] →
        (calc_sensor_wall_type N meta).getD k "" = "side") ∧
      (∀ m : ℚ, pandasMedian ((meta.filter (fun u =>
          u.orientation == (meta.getD k default).orientation &&
          sensorFloor N meta u == sensorFloor N meta (meta.getD k default) &&
          u.TYPE == "windows")).map SensorMeta.Zcoor) = some m →
        (m < (meta.getD k default).Zcoor →
          (calc_sensor_wall_type N meta).getD k "" = "upper") ∧
        ((meta.getD k default).Zcoor < m →
          (calc_sensor_wall_type N meta).getD k "" = "lower") ∧
        ((meta.getD k default).Zcoor = m →
          (calc_sensor_wall_type N meta).getD k "" = "side"))) := by
  have hsmem : meta.getD k default ∈ meta := by
    rw [List.getD_eq_getElem meta default hk]
    exact List.getElem_mem _
  constructor
  · intro hwin
    rw [wall_res_eq N meta k hk]
    have hnone : (wall_type_pairs N meta).find?
        (fun p => p.1 == (meta.getD k default).SURFACE) = none := by
      apply List.find?_eq_none.mpr
      intro p hp hbeq
      obtain ⟨t, ht, htw, htid⟩ := wall_type_pairs_from N meta p hp
      have hid : p.1 = (meta.getD k default).SURFACE := beq_iff_eq.mp hbeq
      have hts : t = meta.getD k default := by
        apply List.inj_on_of_nodup_map hnd ht hsmem
        rw [← htid, hid]
      rw [hts, hwin] at htw
      exact absurd htw (by decide)
    rw [hnone]
    rfl
  · intro hty hor
    have hnottop : (meta.getD k default).orientation ≠ "top" := by
      intro h
      rw [h] at hor
      exact absurd hor (by decide)
    have hfl1 : 1 ≤ sensorFloor N meta (meta.getD k default) := by
      unfold sensorFloor
      rw [if_neg (fun h => hnottop (beq_iff_eq.mp h))]
      omega
    have hfl2 : sensorFloor N meta (meta.getD k default) ≤
        (calc_sensor_floor_number N meta).foldl max 0 :=
      nat_mem_le_foldl_max _ 0 _
        (List.mem_map.mpr ⟨meta.getD k default, hsmem, rfl⟩)
    have hfind : (((wall_type_pairs N meta).find?
        (fun p => p.1 == (meta.getD k default).SURFACE)).map Prod.snd) =
        some (wallLabel (pandasMedian ((meta.filter (fun u =>
          u.orientation == (meta.getD k default).orientation &&
          sensorFloor N meta u == sensorFloor N meta (meta.getD k default) &&
          u.TYPE == "windows")).map SensorMeta.Zcoor)) (meta.getD k default).Zcoor) := by
      apply find?_map_snd_unique
      · exact ⟨_, wall_type_pairs_mem_self N meta (meta.getD k default) hsmem hty hor
          hfl1 hfl2, rfl⟩
      · intro p hp hpeq
        exact wall_type_pairs_unique N meta hnd (meta.getD k default) hsmem p hp hpeq
    have hres : (calc_sensor_wall_type N meta).getD k "" =
        wallLabel (pandasMedian ((meta.filter (fun u =>
          u.orientation == (meta.getD k default).orientation &&
          sensorFloor N meta u == sensorFloor N meta (meta.getD k default) &&
          u.TYPE == "windows")).map SensorMeta.Zcoor)) (meta.getD k default).Zcoor := by
      rw [wall_res_eq N meta k hk, hfind]
      rfl
    constructor
    · intro hW
      rw [hres, hW]
      rfl
    · intro m hm
      refine ⟨?_, ?_, ?_⟩
      · intro hup
        rw [hres, hm]
        show (if (meta.getD k default).Zcoor > m then "upper"
          else if (meta.getD k default).Zcoor < m then "lower" else "side") = "upper"
        rw [if_pos hup]
      · intro hlow
        rw [hres, hm]
        show (if (meta.getD k default).Zcoor > m then "upper"
          else if (meta.getD k default).Zcoor < m then "lower" else "side") = "lower"
        rw [if_neg (not_lt_of_gt hlow), if_pos hlow]
      · intro heq
        rw [hres, hm]
        show (if (meta.getD k default).Zcoor > m then "upper"
          else if (meta.getD k default).Zcoor < m then "lower" else "side") = "side"
        rw [if_neg (by rw [heq]; exact lt_irrefl m),
          if_neg (by rw [heq]; exact lt_irrefl m)]

/-- Example metadata of claim C10: the end-to-end scenario of the spec -
three wall sensors facing north at elevations 2, 5 and 9 on a one floor
building with no window sensor - plus one window sensor on another
orientation to exercise the `non_wall` leg. -/
def exMetaC10 : List SensorMeta :=
  [⟨"w1", "walls", "north", 2⟩, ⟨"w2", "walls", "north", 5⟩,
   ⟨"w3", "walls", "north", 9⟩, ⟨"win", "windows", "east", 5⟩]

/-- C10 witness: the wall sensor at elevation 2 of the scenario building
is labelled `side` (its floor and orientation have no window sensors),
and the window sensor is labelled `non_wall`. -/
theorem calc_sensor_wall_type_spec_witness :
    (calc_sensor_wall_type 1 exMetaC10).getD 0 "" = "side" ∧
    (calc_sensor_wall_type 1 exMetaC10).getD 3 "" = "non_wall" := by
  constructor
  · have hW : ((exMetaC10.filter (fun u =>
        u.orientation == (exMetaC10.getD 0 default).orientation &&
        sensorFloor 1 exMetaC10 u == sensorFloor 1 exMetaC10 (exMetaC10.getD 0 default) &&
        u.TYPE == "windows")).map SensorMeta.Zcoor) = [] := by
      rw [List.map_eq_nil, List.filter_eq_nil]
      intro u hu
      fin_cases hu <;> simp [exMetaC10]
    exact (((calc_sensor_wall_type_spec 1 exMetaC10 (by decide) 0 (by decide)).2
      (by decide) (by decide)).1 hW)
  · exact ((calc_sensor_wall_type_spec 1 exMetaC10 (by decide) 3 (by decide)).1
      (by decide))
